import Mathlib

/-!
# krantor: a watched folder forwarding torrent and magnet files to put.io

A shallow embedding of `src/main.go` and the properties of its file
classifier, configuration check, folder-id parsing, per-file intake,
startup sweep and watcher loop.

Modelling conventions.

* A Go `string` is a Lean `String`; `s.data` is its character list.  The
  only byte-level operations of the program are suffix tests against ASCII
  suffixes and the digit scan of `strconv.ParseUint`, and both agree on
  bytes and on characters: every byte of the UTF-8 encoding of a non-ASCII
  character is at least `0x80`, which is neither a byte of an ASCII suffix
  nor a digit or letter.
* A Go `(value, error)` result is a pair whose second component is an
  `Option`; `none` is the `nil` error.
* The operating system and the put.io client are explicit state: a map from
  paths to nodes, which paths the process may remove, the list of remote
  calls made so far, the list of file operations performed so far and the
  lines written to the log or to standard output.
* A function of the program that can panic returns how it ended (`Ending`)
  together with the world at that moment; a panic ends the process, in
  `main` as in a goroutine.
* `time.Sleep` and the five second deadline of the request context are not
  modelled; a call that times out is a call the client answers with an
  error.
-/

namespace Krantor

/-! ## Strings -/

/-- Go's `strings.HasSuffix`:
`len(s) >= len(suffix) && s[len(s)-len(suffix):] == suffix`. -/
def hasSuffix (s suffix : String) : Bool :=
  decide (s.data.length ≥ suffix.data.length) &&
    (s.data.drop (s.data.length - suffix.data.length) == suffix.data)

/-! ## Configuration and errors -/

/-- The three package-level variables of `main.go` (lines 19-23), read once
from `PUTIO_WATCH_FOLDER`, `PUTIO_TOKEN` and `PUTIO_DOWNLOAD_FOLDER_ID`. -/
structure Config where
  folderPath : String
  putioToken : String
  downloadFolderID : String
  deriving DecidableEq, Repr

/-- The two error kinds of `strconv` that `ParseInt` can report for base 10
and bit size 32: `ErrSyntax` and `ErrRange`. -/
inductive NumErr where
  | errSyntax
  | errRange
  deriving DecidableEq, Repr

/-- The `error` values built by the program.  Each constructor is one
`errors.New` call site; the text of an underlying library error is not
modelled. -/
inductive GoError where
  /-- `"strconv err: %v"` (folderIDConvert). -/
  | strconvErr (e : NumErr)
  /-- `"Openfile err: %v"` (uploadTorrentToPutio). -/
  | openfileErr
  /-- `"Upload to Putio err: %v"` (uploadTorrentToPutio). -/
  | uploadErr
  /-- `"Couldn't read file %v: %v"` (transferMagnetToPutio). -/
  | readFileErr (filename : String)
  /-- `"Transfer to putio err: %v"` (transferMagnetToPutio). -/
  | transferErr
  /-- `"File isn't a torrent or magnet file: %v"` (checkFileType). -/
  | notTorrentOrMagnet (filename : String)
  /-- `errors.New(envToSet)` (checkEnvVariables), carrying the message. -/
  | envNotSet (msg : String)
  /-- An error returned by `ioutil.ReadDir`. -/
  | readDirErr
  deriving DecidableEq, Repr

/-! ## `strconv.ParseInt(s, 10, 32)` -/

/-- The constant `maxUint64` of `strconv`. -/
def maxUint64 : Nat := 2 ^ 64 - 1

/-- The helper `lower` of `strconv`: `c | ('x' - 'X')`. -/
def lower (c : Nat) : Nat := c ||| 0x20

/-- The `switch` of the digit loop of `strconv.ParseUint` for a base other
than 0: the value of the byte as a digit, or `none` for the `default` branch
(a syntax error).  `'0' = 48`, `'9' = 57`, `'a' = 97`, `'z' = 122`. -/
def digitVal (c : Char) : Option Nat :=
  if 48 ≤ c.toNat ∧ c.toNat ≤ 57 then some (c.toNat - 48)
  else if 97 ≤ lower c.toNat ∧ lower c.toNat ≤ 122 then some (lower c.toNat - 97 + 10)
  else none

/-- The digit loop of `strconv.ParseUint`, with `n` the accumulator of type
`uint64` (arithmetic modulo `2 ^ 64`). -/
def parseUintLoop (base maxVal cutoff : Nat) : List Char → Nat → Nat × Option NumErr
  | [], n => (n, none)
  | c :: rest, n =>
    match digitVal c with
    | none => (0, some .errSyntax)
    | some d =>
      if d ≥ base then (0, some .errSyntax)
      else if n ≥ cutoff then (maxVal, some .errRange)
      else
        let n' := (n * base) % 2 ^ 64
        let n1 := (n' + d) % 2 ^ 64
        if n1 < n' ∨ n1 > maxVal then (maxVal, some .errRange)
        else parseUintLoop base maxVal cutoff rest n1

/-- Go's `strconv.ParseUint(s, base, bitSize)` for `2 ≤ base ≤ 36` and
`1 ≤ bitSize ≤ 64` (the program calls it with 10 and 32, so the prefix and
underscore handling of base 0 is not reached). -/
def parseUint (s : List Char) (base bitSize : Nat) : Nat × Option NumErr :=
  if s = [] then (0, some .errSyntax)
  else
    let cutoff := maxUint64 / base + 1
    let maxVal := 2 ^ bitSize - 1
    parseUintLoop base maxVal cutoff s 0

/-- The conversion `int64(un)` of a `uint64`. -/
def int64OfUint64 (un : Nat) : Int :=
  if un < 2 ^ 63 then (un : Int) else (un : Int) - 2 ^ 64

/-- Negation of an `int64`, which wraps at the least value. -/
def negInt64 (n : Int) : Int :=
  if n = -(2 ^ 63) then n else -n

/-- Go's `strconv.ParseInt(s, base, bitSize)` for `2 ≤ base ≤ 36` and
`1 ≤ bitSize ≤ 64`. -/
def parseInt (s : List Char) (base bitSize : Nat) : Int × Option NumErr :=
  match s with
  | [] => (0, some .errSyntax)
  | c :: rest =>
    let signed : Bool × List Char :=
      if c = '+' then (false, rest)
      else if c = '-' then (true, rest)
      else (false, c :: rest)
    let neg := signed.1
    let r := parseUint signed.2 base bitSize
    let un := r.1
    if r.2 = some .errSyntax then (0, r.2)
    else
      let cutoff := 2 ^ (bitSize - 1)
      if !neg && decide (un ≥ cutoff) then (((cutoff - 1 : Nat) : Int), some .errRange)
      else if neg && decide (un > cutoff) then (-(cutoff : Int), some .errRange)
      else
        let n := int64OfUint64 un
        (if neg then negInt64 n else n, none)

/-- `folderIDConvert` (main.go:34-42). -/
def folderIDConvert (cfg : Config) : Int × Option GoError :=
  let r := parseInt cfg.downloadFolderID.data 10 32
  match r.2 with
  | some e => (0, some (.strconvErr e))
  | none => (r.1, none)

/-! ## Classifier and configuration check -/

/-- `checkFileType` (main.go:108-122). -/
def checkFileType (filename : String) : String × Option GoError :=
  let isMagnet := hasSuffix filename ".magnet"
  let isTorrent := hasSuffix filename ".torrent"
  if isMagnet then ("magnet", none)
  else if isTorrent then ("torrent", none)
  else ("", some (.notTorrentOrMagnet filename))

/-- `checkEnvVariables` (main.go:198-214). -/
def checkEnvVariables (cfg : Config) : Option GoError :=
  let envToSet := ""
  let envToSet :=
    if cfg.folderPath = "" then "PUTIO_WATCH_FOLDER is not set / " else envToSet
  let envToSet :=
    if cfg.downloadFolderID = "" then envToSet ++ "PUTIO_DOWNLOAD_FOLDER_ID is not set / "
    else envToSet
  let envToSet :=
    if cfg.putioToken = "" then envToSet ++ "PUTIO_TOKEN is not set / " else envToSet
  if envToSet ≠ "" then some (.envNotSet envToSet) else none

/-! ## The filesystem and the put.io client -/

/-- What a path denotes.  A regular file has a content and may or may not be
readable by the process; for a directory only whether it is empty matters
(`os.Remove` removes an empty directory). -/
inductive Node where
  | file (content : String) (readable : Bool)
  | dir (empty : Bool)
  deriving DecidableEq, Repr

/-- An open `*os.File`, by what a reader of it obtains.  `os.Open` succeeds
on a directory; reading from that handle does not. -/
inductive Handle where
  | file (content : String)
  | dir
  deriving DecidableEq, Repr

/-- A call of an operation of the put.io client, with its arguments (the
context argument apart). -/
inductive RemoteCall where
  /-- `client.Files.Upload(ctx, r, filename, parent)`. -/
  | upload (r : Handle) (filename : String) (parent : Int)
  /-- `client.Transfers.Add(ctx, urlStr, parent, callbackURL)`. -/
  | transfersAdd (urlStr : String) (parent : Int) (callbackURL : String)
  deriving DecidableEq, Repr

/-- The answer of the client to a call: an error, or a `nil` error with a
result.  Of the result the program reads one thing only: `uploadTorrentToPutio`
dereferences the pointer `result.Transfer` of go-putio's `Upload` (main.go:71),
which is `nil` when the service answers with a file and no transfer;
`hasTransfer` says that the pointer is not `nil`.  The result of
`Transfers.Add` is a value, and the flag is not read for it. -/
inductive Reply where
  | error
  | ok (hasTransfer : Bool)
  deriving DecidableEq, Repr

/-- The put.io client as the program sees it: its answer to the present
call, given the calls made so far. -/
abbrev Client := List RemoteCall → RemoteCall → Reply

/-- How a call of a function of the program ends: it returns a value, or it
panics and the process dies. -/
inductive Ending (α : Type) where
  | returned (a : α)
  | panicked
  deriving DecidableEq, Repr

/-- A file operation of the program. -/
inductive FsOp where
  | osOpen (name : String)
  | readFile (name : String)
  | osRemove (name : String)
  deriving DecidableEq, Repr

/-- A line written by `log.Println`, `log.Printf` or `fmt.Printf`. -/
inductive Output where
  /-- `log.Println("Krantor Started")`. -/
  | started
  /-- `log.Println("Reading...")`. -/
  | reading
  /-- `log.Println("magnetData: ", string(magnetData))`. -/
  | magnetData (text : String)
  /-- `fmt.Printf("Transferred to putio: %v at %v ...", filename, createdAt)`. -/
  | transferred (filename : String)
  /-- `log.Println(err)` in `prepareFile`. -/
  | logErr (err : GoError)
  /-- `fmt.Printf("Neue Datei erkannt: %v\n", filename)`. -/
  | neueDatei (filename : String)
  /-- `log.Println("Upload-Fehler:", err)`. -/
  | uploadFehler (err : GoError)
  /-- `log.Println("Transfer-Fehler:", err)`. -/
  | transferFehler (err : GoError)
  /-- `log.Println("event:", event)`. -/
  | event (name : String) (op : Nat)
  deriving DecidableEq, Repr

/-- The state outside the program: the filesystem, whether the process may
remove the entry at a path (the directory holding it is writable and not on
a read-only mount), the remote calls made so far, the file operations
performed so far and the output written so far (each list oldest first). -/
structure World where
  fs : String → Option Node
  canRemove : String → Bool
  calls : List RemoteCall
  ops : List FsOp
  out : List Output

/-- Append a line to the output. -/
def World.println (w : World) (o : Output) : World :=
  { w with out := w.out ++ [o] }

/-- Go's `os.Open(name)`: a handle, or `none` when the call returns an
error (no such path, or a file the process may not read). -/
def osOpen (w : World) (name : String) : Option Handle × World :=
  let w' := { w with ops := w.ops ++ [FsOp.osOpen name] }
  match w.fs name with
  | some (.file content true) => (some (.file content), w')
  | some (.dir _) => (some .dir, w')
  | _ => (none, w')

/-- Go's `ioutil.ReadFile(filename)`: the whole content, or `none` when the
call returns an error (no such path, an unreadable file, a directory). -/
def readFile (w : World) (filename : String) : Option String × World :=
  let w' := { w with ops := w.ops ++ [FsOp.readFile filename] }
  match w.fs filename with
  | some (.file content true) => (some content, w')
  | _ => (none, w')

/-- Go's `os.Remove(name)` with its result discarded, as the program calls
it: where the process may remove the entry, a file or an empty directory is
removed; in every other case the call returns an error, which the program
does not read, and the filesystem is left as it is. -/
def osRemove (w : World) (name : String) : World :=
  let w' := { w with ops := w.ops ++ [FsOp.osRemove name] }
  if w.canRemove name then
    match w.fs name with
    | some (.file _ _) => { w' with fs := fun p => if p = name then none else w.fs p }
    | some (.dir true) => { w' with fs := fun p => if p = name then none else w.fs p }
    | _ => w'
  else w'

/-- One call of the client: the call is answered from the calls made so far
and then recorded. -/
def remoteCall (client : Client) (w : World) (c : RemoteCall) : Reply × World :=
  (client w.calls c, { w with calls := w.calls ++ [c] })

/-! ## The two uploaders and the intake -/

/-- `uploadTorrentToPutio` (main.go:44-73).  The parameter `filepath` is
unused by the source.  After a `nil` error the source evaluates
`result.Transfer.CreatedAt` for its `fmt.Printf`: with `result.Transfer`
`nil` this is a nil pointer dereference, the function panics before
anything is printed. -/
def uploadTorrentToPutio (cfg : Config) (filename : String) (_filepath : String)
    (client : Client) (w : World) : Ending (Option GoError) × World :=
  let conv := folderIDConvert cfg
  match conv.2 with
  | some err => (.returned (some err), w)
  | none =>
    let folderID := conv.1
    let w := w.println .reading
    match osOpen w filename with
    | (none, w) => (.returned (some .openfileErr), w)
    | (some file, w) =>
      match remoteCall client w (.upload file filename folderID) with
      | (.error, w) => (.returned (some .uploadErr), w)
      | (.ok false, w) => (.panicked, w)
      | (.ok true, w) => (.returned none, w.println (.transferred filename))

/-- `transferMagnetToPutio` (main.go:75-106).  The parameter `filepath` is
unused by the source.  The folder id goes to `Transfers.Add` (the comment of
main.go:80 still names `Files.Upload`).  The result of `Transfers.Add` is a
value and `result.CreatedAt` is only printed, so no answer makes this
function panic; it has the result type of `uploadTorrentToPutio` so that the
callers treat the two alike. -/
def transferMagnetToPutio (cfg : Config) (filename : String) (_filepath : String)
    (client : Client) (w : World) : Ending (Option GoError) × World :=
  let conv := folderIDConvert cfg
  match conv.2 with
  | some err => (.returned (some err), w)
  | none =>
    let folderID := conv.1
    let w := w.println .reading
    match readFile w filename with
    | (none, w) => (.returned (some (.readFileErr filename)), w)
    | (some magnetData, w) =>
      let w := w.println (.magnetData magnetData)
      match remoteCall client w (.transfersAdd magnetData folderID "") with
      | (.error, w) => (.returned (some .transferErr), w)
      | (.ok _, w) => (.returned none, w.println (.transferred filename))

/-- The type `fsnotify.Event`: the path and the operation bit mask. -/
structure Event where
  name : String
  op : Nat
  deriving DecidableEq, Repr

/-- `prepareFile` (main.go:124-160).  The local `filepath` is declared and
never assigned, so it is the empty string.  A panic of the uploader is not
recovered: it ends `prepareFile` where it stands. -/
def prepareFile (cfg : Config) (event : Event) (client : Client) (w : World) :
    Ending Unit × World :=
  let filepath := ""
  let filename := event.name
  let checked := checkFileType filename
  match checked.2 with
  | some err => (.returned (), w.println (.logErr err))
  | none =>
    let fileType := checked.1
    let w := w.println (.neueDatei filename)
    if fileType = "torrent" then
      match uploadTorrentToPutio cfg filename filepath client w with
      | (.panicked, w) => (.panicked, w)
      | (.returned (some err), w) => (.returned (), w.println (.uploadFehler err))
      | (.returned none, w) => (.returned (), osRemove w filename)
    else if fileType = "magnet" then
      match transferMagnetToPutio cfg filename filepath client w with
      | (.panicked, w) => (.panicked, w)
      | (.returned (some err), w) => (.returned (), w.println (.transferFehler err))
      | (.returned none, w) => (.returned (), osRemove w filename)
    else (.returned (), w)

/-! ## The startup sweep and `main` -/

/-- The part of `os.FileInfo` the program reads. -/
structure FileInfo where
  name : String
  isDir : Bool
  deriving DecidableEq, Repr

/-- The body of the `for _, f := range files` loop of `main`
(main.go:236-264). -/
def sweepStep (cfg : Config) (client : Client) (w : World) (f : FileInfo) :
    Ending Unit × World :=
  if f.isDir then (.returned (), w)
  else
    let filename := cfg.folderPath ++ "/" ++ f.name
    let checked := checkFileType filename
    match checked.2 with
    | some _ => (.returned (), w)
    | none =>
      let fileType := checked.1
      if fileType = "torrent" then
        match uploadTorrentToPutio cfg filename "" client w with
        | (.panicked, w) => (.panicked, w)
        | (.returned (some err), w) => (.returned (), w.println (.uploadFehler err))
        | (.returned none, w) => (.returned (), osRemove w filename)
      else if fileType = "magnet" then
        match transferMagnetToPutio cfg filename "" client w with
        | (.panicked, w) => (.panicked, w)
        | (.returned (some err), w) => (.returned (), w.println (.transferFehler err))
        | (.returned none, w) => (.returned (), osRemove w filename)
      else (.returned (), w)

/-- The `for _, f := range files` loop of `main`: the entries in order, up
to the end of the listing or to a panic. -/
def sweep (cfg : Config) (client : Client) : List FileInfo → World → Ending Unit × World
  | [], w => (.returned (), w)
  | f :: files, w =>
    match sweepStep cfg client w f with
    | (.panicked, w) => (.panicked, w)
    | (.returned _, w) => sweep cfg client files w

/-- How `main` goes on after the startup sweep: the process has exited
through `log.Fatal`, it has died of a panic, or control has reached the call
`watchFolder(client)`. -/
inductive Outcome where
  | fatal (err : GoError) (w : World)
  | panic (w : World)
  | watchFolder (w : World)

/-- `main` (main.go:216-268) up to the call of `watchFolder`.  The result of
`ioutil.ReadDir(folderPath)` is the argument `readDir`.
`connectToPutio` always returns a `nil` error. -/
def main (cfg : Config) (client : Client) (readDir : Except GoError (List FileInfo))
    (w : World) : Outcome :=
  let w := w.println .started
  match checkEnvVariables cfg with
  | some err => .fatal err w
  | none =>
    match readDir with
    | .error err => .fatal err w
    | .ok files =>
      match sweep cfg client files w with
      | (.panicked, w) => .panic w
      | (.returned _, w) => .watchFolder w

/-! ## The watcher loop -/

/-- The constants `fsnotify.Create`, `Write`, `Remove`, `Rename`, `Chmod`:
`1 << 0` to `1 << 4`. -/
def Create : Nat := 1
/-- See `Create`. -/
def Write : Nat := 2
/-- See `Create`. -/
def Remove : Nat := 4
/-- See `Create`. -/
def Rename : Nat := 8
/-- See `Create`. -/
def Chmod : Nat := 16

/-- The method `Event.Has` of fsnotify: `e.Op&op == op`. -/
def Event.has (e : Event) (op : Nat) : Bool :=
  e.op &&& op == op

/-- What the `select` of the goroutine of `watchFolder` receives: an event,
the closing of the event channel, an error, or the closing of the error
channel. -/
inductive Msg where
  | event (e : Event)
  | eventsClosed
  | error
  | errorsClosed
  deriving DecidableEq, Repr

/-- The state of the goroutine of `watchFolder`: the intake tasks started
with `go prepareFile(event, client)`, oldest first, and the lines logged.
The tasks are recorded, not run. -/
structure LoopState where
  spawned : List Event
  out : List Output
  deriving DecidableEq, Repr

/-- Whether the loop goes on, has returned (a channel was closed) or has
ended the process through `log.Fatalln`. -/
inductive LoopStatus where
  | running
  | returned
  | fatal
  deriving DecidableEq, Repr

/-- One iteration of the `for { select { ... } }` loop of `watchFolder`
(main.go:170-186). -/
def watchStep (st : LoopState) : Msg → LoopStatus × LoopState
  | .eventsClosed => (.returned, st)
  | .event e =>
    let st := { st with out := st.out ++ [Output.event e.name e.op] }
    if e.has Create then (.running, { st with spawned := st.spawned ++ [e] })
    else (.running, st)
  | .errorsClosed => (.returned, st)
  | .error => (.fatal, st)

/-- The loop of the goroutine of `watchFolder` on the messages it receives,
in order. -/
def watchLoop : List Msg → LoopState → LoopStatus × LoopState
  | [], st => (.running, st)
  | m :: ms, st =>
    match watchStep st m with
    | (.running, st) => watchLoop ms st
    | r => r


/-! ## Example data -/

/-- The watched directory of the example: `/watch` with the files
`a.torrent`, `b.magnet` and `c.txt` and the empty subdirectory `d`. -/
def exampleFs : String → Option Node := fun p =>
  if p = "/watch/a.torrent" then some (.file "d8:announce" true)
  else if p = "/watch/b.magnet" then some (.file "magnet:?xt=urn:btih:c12f" true)
  else if p = "/watch/c.txt" then some (.file "notes" true)
  else if p = "/watch/d" then some (.dir true)
  else none

/-- The world of the example before the program starts. -/
def exampleWorld : World := ⟨exampleFs, fun _ => true, [], [], []⟩

/-- The example world with `a.torrent` not readable by the process. -/
def unreadableWorld : World :=
  ⟨fun p => if p = "/watch/a.torrent" then some (.file "d8:announce" false) else exampleFs p,
    fun _ => true, [], [], []⟩

/-- The example world with the watched directory not writable: the process
may remove nothing. -/
def lockedWorld : World := ⟨exampleFs, fun _ => false, [], [], []⟩

/-- What `ioutil.ReadDir("/watch")` returns in the example. -/
def exampleListing : List FileInfo :=
  [⟨"a.torrent", false⟩, ⟨"b.magnet", false⟩, ⟨"c.txt", false⟩, ⟨"d", true⟩]

/-- A configuration with the folder id 12. -/
def exampleConfig : Config := ⟨"/watch", "token", "12"⟩

/-- A configuration whose folder id is set and is not a number. -/
def badIdConfig : Config := ⟨"/watch", "token", "x"⟩

/-- A client all of whose calls succeed, an upload with a transfer in its
result. -/
def alwaysSucceeds : Client := fun _ _ => .ok true

/-- A client all of whose calls succeed, an upload with a file and no
transfer in its result. -/
def succeedsWithoutTransfer : Client := fun _ _ => .ok false

/-- A client all of whose calls fail. -/
def alwaysFails : Client := fun _ _ => .error

/-! ## Vocabulary of the properties -/

/-- The string `s` ends with `suffix`. -/
def EndsWith (s suffix : String) : Prop := ∃ p : String, s = p ++ suffix

/-- The string `part` occurs in `msg` as a contiguous piece. -/
def Mentions (msg part : String) : Prop := part.data <:+: msg.data

/-- The character is one of `0` to `9`. -/
def IsDecimalDigit (c : Char) : Prop := 48 ≤ c.toNat ∧ c.toNat ≤ 57

/-- The number that the digits `ds` denote in base ten, continuing from `n`. -/
def decimalFrom (n : Nat) (ds : List Char) : Nat :=
  ds.foldl (fun acc c => 10 * acc + (c.toNat - 48)) n

/-- The number that the digits `ds` denote in base ten. -/
def decimalValue (ds : List Char) : Nat := decimalFrom 0 ds

/-- The string is an optionally signed, non-empty sequence of decimal digits
that denotes `v`, and `v` lies in the signed 32-bit range. -/
def IsSignedDecimal32 (s : String) (v : Int) : Prop :=
  ∃ (sign ds : List Char), s.data = sign ++ ds ∧
    (sign = [] ∨ sign = ['+'] ∨ sign = ['-']) ∧ ds ≠ [] ∧ (∀ c ∈ ds, IsDecimalDigit c) ∧
    v = (if sign = ['-'] then -(decimalValue ds : Int) else (decimalValue ds : Int)) ∧
    -2147483648 ≤ v ∧ v ≤ 2147483647

/-- The part of `ParseInt` after the call of `ParseUint`, for bit size 32. -/
def parseIntTail (neg : Bool) (r : Nat × Option NumErr) : Int × Option NumErr :=
  if r.2 = some .errSyntax then (0, r.2)
  else if !neg && decide (r.1 ≥ 2 ^ 31) then (((2 ^ 31 - 1 : Nat) : Int), some .errRange)
  else if neg && decide (r.1 > 2 ^ 31) then (-((2 ^ 31 : Nat) : Int), some .errRange)
  else (if neg then negInt64 (int64OfUint64 r.1) else int64OfUint64 r.1, none)

/-- The part of a path after its last path separator. -/
def baseName (p : String) : String :=
  ⟨(p.data.reverse.takeWhile (fun c => c != '/')).reverse⟩

/-- The path under which `main` handles a listed entry:
`folderPath + "/" + f.Name()`. -/
def entryPath (cfg : Config) (f : FileInfo) : String :=
  cfg.folderPath ++ "/" ++ f.name

/-- The listed entry is not a directory and its name ends in ".torrent" or
".magnet". -/
def isCandidate (f : FileInfo) : Bool :=
  !f.isDir && (hasSuffix f.name ".torrent" || hasSuffix f.name ".magnet")

/-- The remote call for a listed file: a transfer of its text for a name
ending in ".magnet", else an upload of its content under its path. -/
def sweepCall (cfg : Config) (folderID : Int) (w : World) (f : FileInfo) : RemoteCall :=
  let content :=
    match w.fs (entryPath cfg f) with
    | some (.file c _) => c
    | _ => ""
  if hasSuffix f.name ".magnet" then .transfersAdd content folderID ""
  else .upload (.file content) (entryPath cfg f) folderID

/-- The line logged for a listed file when the folder id does not parse. -/
def parseErrorLine (e : NumErr) (f : FileInfo) : Output :=
  if hasSuffix f.name ".magnet" then .transferFehler (.strconvErr e)
  else .uploadFehler (.strconvErr e)

/-- What `prepareFile` and the loop of `main` do with the result of an
uploader, for the file `filename` and the log line `line` of an error: a
panic goes on, an error is logged, and after a `nil` error the file is
removed. -/
def afterUpload (filename : String) (line : GoError → Output) :
    Ending (Option GoError) × World → Ending Unit × World
  | (.panicked, w) => (.panicked, w)
  | (.returned (some err), w) => (.returned (), w.println (line err))
  | (.returned none, w) => (.returned (), osRemove w filename)

/-! ## Properties: the classifier -/

theorem hasSuffix_iff (s suffix : String) : hasSuffix s suffix = true ↔ EndsWith s suffix := by
  unfold hasSuffix EndsWith
  constructor
  · intro h
    simp only [Bool.and_eq_true, decide_eq_true_eq, beq_iff_eq] at h
    refine ⟨⟨s.data.take (s.data.length - suffix.data.length)⟩, ?_⟩
    apply String.ext
    have h3 := List.take_append_drop (s.data.length - suffix.data.length) s.data
    rw [h.2] at h3
    rw [String.data_append]
    exact h3.symm
  · rintro ⟨p, rfl⟩
    simp

theorem endsWith_length {s suffix : String} (h : EndsWith s suffix) :
    suffix.data.length ≤ s.data.length ∧
      s.data.drop (s.data.length - suffix.data.length) = suffix.data := by
  obtain ⟨p, rfl⟩ := h
  simp

theorem not_magnet_and_torrent (s : String) :
    ¬ (EndsWith s ".magnet" ∧ EndsWith s ".torrent") := by
  rintro ⟨hm, ht⟩
  have h1 := endsWith_length hm
  have h2 := endsWith_length ht
  have l1 : (".magnet" : String).data.length = 7 := by decide
  have l2 : (".torrent" : String).data.length = 8 := by decide
  rw [l1] at h1
  rw [l2] at h2
  have h3 : (s.data.drop (s.data.length - 8)).drop 1 = s.data.drop (s.data.length - 7) := by
    rw [List.drop_drop]
    congr 1
    omega
  rw [h2.2, h1.2] at h3
  exact absurd h3 (by decide)

/-- C1: `checkFileType` answers "magnet" without error exactly for the names
ending in ".magnet", "torrent" without error exactly for the names ending in
".torrent" (which never end in ".magnet"), and the unrecognised-file error,
with the empty kind, exactly for all other names; the match is case
sensitive. -/
theorem checkFileType_spec (name : String) :
    (checkFileType name = ("magnet", none) ↔ EndsWith name ".magnet") ∧
    (checkFileType name = ("torrent", none) ↔
      (EndsWith name ".torrent" ∧ ¬ EndsWith name ".magnet")) ∧
    (checkFileType name = ("", some (.notTorrentOrMagnet name)) ↔
      (¬ EndsWith name ".magnet" ∧ ¬ EndsWith name ".torrent")) ∧
    (checkFileType name = ("magnet", none) ∨ checkFileType name = ("torrent", none) ∨
      checkFileType name = ("", some (.notTorrentOrMagnet name))) ∧
    checkFileType "x.torrent" = ("torrent", none) ∧
    checkFileType "x.magnet" = ("magnet", none) ∧
    checkFileType "x.TORRENT" = ("", some (.notTorrentOrMagnet "x.TORRENT")) ∧
    checkFileType "x.txt" = ("", some (.notTorrentOrMagnet "x.txt")) := by
  have hx := not_magnet_and_torrent name
  rw [← hasSuffix_iff, ← hasSuffix_iff] at hx
  simp only [← hasSuffix_iff]
  refine ⟨?_, ?_, ?_, ?_, by decide, by decide, by decide, by decide⟩ <;>
    unfold checkFileType <;>
    cases hm : hasSuffix name ".magnet" <;>
    cases ht : hasSuffix name ".torrent" <;>
    simp_all

/-! ## Properties: the configuration check -/

set_option maxRecDepth 100000 in
/-- C2: `checkEnvVariables` returns an error exactly when one of the three
values is empty; its message then holds, for each empty value, the entry
naming that variable followed by " / ", and does not hold the name of a
variable that is set; `main` then exits before reading the directory. -/
theorem checkEnvVariables_spec (cfg : Config) :
    ∃ msg : String,
      checkEnvVariables cfg =
        (if cfg.folderPath = "" ∨ cfg.putioToken = "" ∨ cfg.downloadFolderID = ""
          then some (.envNotSet msg) else none) ∧
      (Mentions msg "PUTIO_WATCH_FOLDER is not set / " ↔ cfg.folderPath = "") ∧
      (Mentions msg "PUTIO_WATCH_FOLDER" ↔ cfg.folderPath = "") ∧
      (Mentions msg "PUTIO_TOKEN is not set / " ↔ cfg.putioToken = "") ∧
      (Mentions msg "PUTIO_TOKEN" ↔ cfg.putioToken = "") ∧
      (Mentions msg "PUTIO_DOWNLOAD_FOLDER_ID is not set / " ↔ cfg.downloadFolderID = "") ∧
      (Mentions msg "PUTIO_DOWNLOAD_FOLDER_ID" ↔ cfg.downloadFolderID = "") ∧
      ((cfg.folderPath = "" ∨ cfg.putioToken = "" ∨ cfg.downloadFolderID = "") →
        ∀ client readDir w,
          main cfg client readDir w = .fatal (.envNotSet msg) (w.println .started)) ∧
      checkEnvVariables ⟨"", "", ""⟩ =
        some (.envNotSet ("PUTIO_WATCH_FOLDER is not set / " ++
          "PUTIO_DOWNLOAD_FOLDER_ID is not set / PUTIO_TOKEN is not set / ")) ∧
      checkEnvVariables ⟨"/watch", "", "12"⟩ = some (.envNotSet "PUTIO_TOKEN is not set / ") := by
  by_cases h1 : cfg.folderPath = "" <;> by_cases h2 : cfg.downloadFolderID = "" <;>
    by_cases h3 : cfg.putioToken = ""
  all_goals
    refine ⟨(if cfg.folderPath = "" then "PUTIO_WATCH_FOLDER is not set / " else "") ++
      (if cfg.downloadFolderID = "" then "PUTIO_DOWNLOAD_FOLDER_ID is not set / " else "") ++
      (if cfg.putioToken = "" then "PUTIO_TOKEN is not set / " else ""), ?_⟩
    simp only [h1, h2, h3, if_true, if_false, true_or, or_true, or_false, false_or, iff_true,
      iff_false, Mentions, main, checkEnvVariables]
    refine ⟨by decide, by decide, by decide, by decide, by decide, by decide, by decide, ?_,
      by decide, by decide⟩
    first
      | (intro _ client readDir w; rfl)
      | (intro h; exact absurd h (by simp))


/-! ## Properties: the folder id -/

theorem decimalFrom_cons (n : Nat) (c : Char) (ds : List Char) :
    decimalFrom n (c :: ds) = decimalFrom (10 * n + (c.toNat - 48)) ds := rfl

theorem le_decimalFrom (ds : List Char) : ∀ n, n ≤ decimalFrom n ds := by
  induction ds with
  | nil => intro n; exact le_refl _
  | cons c ds ih =>
    intro n
    rw [decimalFrom_cons]
    exact le_trans (by omega) (ih _)

theorem digitVal_of_digit {c : Char} (h : IsDecimalDigit c) : digitVal c = some (c.toNat - 48) := by
  unfold IsDecimalDigit at h
  simp [digitVal, h]

theorem digit_of_digitVal {c : Char} {d : Nat} (h : digitVal c = some d) (hd : d < 10) :
    IsDecimalDigit c ∧ d = c.toNat - 48 := by
  unfold digitVal at h
  split_ifs at h with h1 h2
  · simp at h
    exact ⟨h1, h.symm⟩
  · simp at h
    omega

/-- On digits, the loop of `ParseUint` accumulates the decimal value and
reports a range error as soon as it exceeds `maxVal`. -/
theorem parseUintLoop_digits (maxVal cutoff : Nat) (hM : maxVal * 10 + 9 < 2 ^ 64)
    (hC : maxVal < cutoff) (ds : List Char) :
    ∀ n, n ≤ maxVal → (∀ c ∈ ds, IsDecimalDigit c) →
      parseUintLoop 10 maxVal cutoff ds n =
        if decimalFrom n ds ≤ maxVal then (decimalFrom n ds, none)
        else (maxVal, some .errRange) := by
  induction ds with
  | nil =>
    intro n hn _
    simp [parseUintLoop, decimalFrom, hn]
  | cons c ds ih =>
    intro n hn hds
    have hc : IsDecimalDigit c := hds c (List.mem_cons_self _ _)
    have hrest : ∀ x ∈ ds, IsDecimalDigit x := fun x hx => hds x (List.mem_cons_of_mem _ hx)
    have hd : c.toNat - 48 < 10 := by unfold IsDecimalDigit at hc; omega
    rw [parseUintLoop, digitVal_of_digit hc]
    have h1 : ¬ (c.toNat - 48 ≥ 10) := by omega
    have h2 : ¬ (n ≥ cutoff) := by omega
    have h3 : n * 10 % 2 ^ 64 = n * 10 := Nat.mod_eq_of_lt (by omega)
    have h4 : (n * 10 + (c.toNat - 48)) % 2 ^ 64 = n * 10 + (c.toNat - 48) :=
      Nat.mod_eq_of_lt (by omega)
    simp only [h1, h2, h3, h4, if_false]
    rw [decimalFrom_cons]
    have h5 : 10 * n + (c.toNat - 48) = n * 10 + (c.toNat - 48) := by omega
    rw [h5]
    by_cases h6 : n * 10 + (c.toNat - 48) > maxVal
    · have h7 := le_decimalFrom ds (n * 10 + (c.toNat - 48))
      have h8 : ¬ decimalFrom (n * 10 + (c.toNat - 48)) ds ≤ maxVal := by omega
      simp [h6, h8]
    · have h9 : ¬ (n * 10 + (c.toNat - 48) < n * 10 ∨ n * 10 + (c.toNat - 48) > maxVal) := by
        omega
      rw [if_neg h9]
      exact ih _ (by omega) hrest

/-- The loop of `ParseUint` in base ten ends without error only on digits. -/
theorem parseUintLoop_none (maxVal cutoff : Nat) (ds : List Char) :
    ∀ n, (parseUintLoop 10 maxVal cutoff ds n).2 = none → ∀ c ∈ ds, IsDecimalDigit c := by
  induction ds with
  | nil => intro n _ c hc; simp at hc
  | cons c ds ih =>
    intro n h
    rw [parseUintLoop] at h
    cases hdv : digitVal c with
    | none => rw [hdv] at h; simp at h
    | some d =>
      rw [hdv] at h
      simp only at h
      split_ifs at h with h1 h2 h3
      intro x hx
      rcases List.mem_cons.mp hx with rfl | hx
      · exact (digit_of_digitVal hdv (by omega)).1
      · exact ih _ h x hx

/-- A range error of the loop of `ParseUint` comes with the value `maxVal`. -/
theorem parseUintLoop_range (base maxVal cutoff : Nat) (ds : List Char) :
    ∀ n, (parseUintLoop base maxVal cutoff ds n).2 = some .errRange →
      (parseUintLoop base maxVal cutoff ds n).1 = maxVal := by
  induction ds with
  | nil => intro n h; simp [parseUintLoop] at h
  | cons c ds ih =>
    intro n
    rw [parseUintLoop]
    cases hdv : digitVal c with
    | none => intro h; simp at h
    | some d =>
      simp only
      by_cases h1 : d ≥ base
      · rw [if_pos h1]; intro h; simp at h
      · rw [if_neg h1]
        by_cases h2 : n ≥ cutoff
        · rw [if_pos h2]; intro _; rfl
        · rw [if_neg h2]
          by_cases h3 : (n * base % 2 ^ 64 + d) % 2 ^ 64 < n * base % 2 ^ 64 ∨
              (n * base % 2 ^ 64 + d) % 2 ^ 64 > maxVal
          · rw [if_pos h3]; intro _; rfl
          · rw [if_neg h3]; exact ih _


theorem parseUint_digits (ds : List Char) (hne : ds ≠ []) (hds : ∀ c ∈ ds, IsDecimalDigit c) :
    parseUint ds 10 32 =
      if decimalValue ds ≤ 4294967295 then (decimalValue ds, none)
      else (4294967295, some .errRange) := by
  unfold parseUint
  rw [if_neg hne]
  exact parseUintLoop_digits (2 ^ 32 - 1) (maxUint64 / 10 + 1) (by norm_num)
    (by norm_num [maxUint64]) ds 0 (by norm_num) hds

theorem parseUint_none (ds : List Char) (h : (parseUint ds 10 32).2 = none) :
    ds ≠ [] ∧ ∀ c ∈ ds, IsDecimalDigit c := by
  unfold parseUint at h
  by_cases hne : ds = []
  · rw [if_pos hne] at h; simp at h
  · rw [if_neg hne] at h
    exact ⟨hne, parseUintLoop_none _ _ ds 0 h⟩

theorem parseUint_range (ds : List Char) (h : (parseUint ds 10 32).2 = some .errRange) :
    (parseUint ds 10 32).1 = 4294967295 := by
  unfold parseUint at h ⊢
  by_cases hne : ds = []
  · rw [if_pos hne] at h; simp at h
  · rw [if_neg hne] at h ⊢
    exact parseUintLoop_range _ _ _ ds 0 h

theorem parseInt_cons (c : Char) (rest : List Char) :
    parseInt (c :: rest) 10 32 =
      if c = '+' then parseIntTail false (parseUint rest 10 32)
      else if c = '-' then parseIntTail true (parseUint rest 10 32)
      else parseIntTail false (parseUint (c :: rest) 10 32) := by
  unfold parseInt parseIntTail
  split_ifs <;> simp_all

theorem parseIntTail_ok (neg : Bool) (ds : List Char) (hne : ds ≠ [])
    (hds : ∀ c ∈ ds, IsDecimalDigit c)
    (hr : if neg then decimalValue ds ≤ 2147483648 else decimalValue ds ≤ 2147483647) :
    parseIntTail neg (parseUint ds 10 32) =
      (if neg then -(decimalValue ds : Int) else (decimalValue ds : Int), none) := by
  have hle : decimalValue ds ≤ 4294967295 := by
    cases neg <;> simp at hr <;> omega
  rw [parseUint_digits ds hne hds, if_pos hle]
  unfold parseIntTail int64OfUint64 negInt64
  cases neg
  · simp at hr
    have h1 : ¬ (2147483648 ≤ decimalValue ds) := by omega
    have h2 : decimalValue ds < 9223372036854775808 := by omega
    simp [h1, h2]
  · simp at hr
    have h1 : ¬ (2147483648 < decimalValue ds) := by omega
    have h2 : decimalValue ds < 9223372036854775808 := by omega
    have h3 : ¬ ((decimalValue ds : Int) = -9223372036854775808) := by omega
    simp [h1, h2, h3]

theorem parseIntTail_none (neg : Bool) (ds : List Char)
    (h : (parseIntTail neg (parseUint ds 10 32)).2 = none) :
    ds ≠ [] ∧ (∀ c ∈ ds, IsDecimalDigit c) ∧
      (if neg then decimalValue ds ≤ 2147483648 else decimalValue ds ≤ 2147483647) ∧
      (parseIntTail neg (parseUint ds 10 32)).1 =
        (if neg then -(decimalValue ds : Int) else (decimalValue ds : Int)) := by
  have hnone : (parseUint ds 10 32).2 = none := by
    cases hr : (parseUint ds 10 32).2 with
    | none => rfl
    | some e =>
      exfalso
      cases e with
      | errSyntax => simp [parseIntTail, hr] at h
      | errRange =>
        have hv := parseUint_range ds hr
        unfold parseIntTail at h
        rw [hr, hv] at h
        cases neg <;> simp at h
  obtain ⟨hne, hds⟩ := parseUint_none ds hnone
  have hbound : if neg then decimalValue ds ≤ 2147483648 else decimalValue ds ≤ 2147483647 := by
    rw [parseUint_digits ds hne hds] at h
    by_cases hle : decimalValue ds ≤ 4294967295
    · rw [if_pos hle] at h
      unfold parseIntTail at h
      cases neg
      · by_cases h1 : 2147483648 ≤ decimalValue ds
        · simp [h1] at h
        · simp; omega
      · by_cases h1 : 2147483648 < decimalValue ds
        · simp [h1] at h
        · simp; omega
    · rw [if_neg hle] at h
      unfold parseIntTail at h
      cases neg <;> simp at h
  refine ⟨hne, hds, hbound, ?_⟩
  rw [parseIntTail_ok neg ds hne hds hbound]


theorem digit_ne_sign {c : Char} (h : IsDecimalDigit c) : c ≠ '+' ∧ c ≠ '-' := by
  unfold IsDecimalDigit at h
  constructor <;> rintro rfl <;> revert h <;> decide

theorem parseInt_complete (s : String) (v : Int) (h : IsSignedDecimal32 s v) :
    parseInt s.data 10 32 = (v, none) := by
  obtain ⟨sign, ds, hs, hsign, hne, hds, hv, hlo, hhi⟩ := h
  rw [hs]
  rcases hsign with rfl | rfl | rfl
  · obtain ⟨c, r, rfl⟩ := List.exists_cons_of_ne_nil hne
    have hc := digit_ne_sign (hds c (List.mem_cons_self _ _))
    simp only [List.nil_append, parseInt_cons, if_neg hc.1, if_neg hc.2]
    have hv2 : v = (decimalValue (c :: r) : Int) := by simpa using hv
    rw [parseIntTail_ok false (c :: r) hne hds (by simp; omega)]
    simp [hv2]
  · have hv2 : v = (decimalValue ds : Int) := by simpa using hv
    simp only [List.singleton_append, parseInt_cons, if_true]
    rw [parseIntTail_ok false ds hne hds (by simp; omega)]
    simp [hv2]
  · have hv2 : v = -(decimalValue ds : Int) := by simpa using hv
    have hpm : ¬ ('-' = '+') := by decide
    simp only [List.singleton_append, parseInt_cons, if_true, if_neg hpm]
    rw [parseIntTail_ok true ds hne hds (by simp; omega)]
    simp [hv2]

theorem parseInt_sound (s : String) (h : (parseInt s.data 10 32).2 = none) :
    IsSignedDecimal32 s (parseInt s.data 10 32).1 := by
  cases hs : s.data with
  | nil => rw [hs] at h; simp [parseInt] at h
  | cons c rest =>
    rw [hs] at h
    rw [parseInt_cons] at h ⊢
    by_cases hp : c = '+'
    · rw [if_pos hp] at h ⊢
      obtain ⟨hne, hds, hb, hv⟩ := parseIntTail_none false rest h
      simp only [Bool.false_eq_true, if_false] at hb hv
      refine ⟨['+'], rest, by simp [hs, hp], Or.inr (Or.inl rfl), hne, hds, ?_, ?_, ?_⟩
      · rw [hv]; simp
      · rw [hv]; omega
      · rw [hv]; omega
    · rw [if_neg hp] at h ⊢
      by_cases hm : c = '-'
      · rw [if_pos hm] at h ⊢
        obtain ⟨hne, hds, hb, hv⟩ := parseIntTail_none true rest h
        simp only [if_true] at hb hv
        refine ⟨['-'], rest, by simp [hs, hm], Or.inr (Or.inr rfl), hne, hds, ?_, ?_, ?_⟩
        · rw [hv]; simp
        · rw [hv]; omega
        · rw [hv]; omega
      · rw [if_neg hm] at h ⊢
        obtain ⟨hne, hds, hb, hv⟩ := parseIntTail_none false (c :: rest) h
        simp only [Bool.false_eq_true, if_false] at hb hv
        refine ⟨[], c :: rest, by simp [hs], Or.inl rfl, hne, hds, ?_, ?_, ?_⟩
        · rw [hv]; simp
        · rw [hv]; omega
        · rw [hv]; omega

theorem folderIDConvert_none {cfg : Config}
    (hr : (parseInt cfg.downloadFolderID.data 10 32).2 = none) :
    folderIDConvert cfg = ((parseInt cfg.downloadFolderID.data 10 32).1, none) := by
  unfold folderIDConvert
  simp only [hr]

theorem folderIDConvert_of_parse {cfg : Config} {v : Int}
    (hr : parseInt cfg.downloadFolderID.data 10 32 = (v, none)) :
    folderIDConvert cfg = (v, none) := by
  rw [folderIDConvert_none (by rw [hr]), hr]

theorem folderIDConvert_some {cfg : Config} {e : NumErr}
    (hr : (parseInt cfg.downloadFolderID.data 10 32).2 = some e) :
    folderIDConvert cfg = (0, some (.strconvErr e)) := by
  unfold folderIDConvert
  simp only [hr]

/-- C10: `folderIDConvert` returns a value without error exactly when the
configured folder id is an optionally signed, non-empty sequence of decimal
digits denoting a number of the signed 32-bit range, and the value is that
number; for every other string, a decimal number out of that range such as
"2147483648" included, it returns 0 and an error. -/
theorem folderIDConvert_spec (cfg : Config) :
    (∀ v : Int, folderIDConvert cfg = (v, none) ↔ IsSignedDecimal32 cfg.downloadFolderID v) ∧
    ((∃ e, folderIDConvert cfg = (0, some (.strconvErr e))) ↔
      ¬ ∃ v : Int, IsSignedDecimal32 cfg.downloadFolderID v) ∧
    folderIDConvert { cfg with downloadFolderID := "2147483648" } =
      (0, some (.strconvErr .errRange)) ∧
    folderIDConvert { cfg with downloadFolderID := "2147483647" } = (2147483647, none) ∧
    folderIDConvert { cfg with downloadFolderID := "-2147483648" } = (-2147483648, none) := by
  refine ⟨?_, ?_, ?_, ?_, ?_⟩
  · intro v
    constructor
    · intro h
      cases hr : (parseInt cfg.downloadFolderID.data 10 32).2 with
      | some e => rw [folderIDConvert_some hr] at h; simp at h
      | none =>
        rw [folderIDConvert_none hr] at h
        simp only [Prod.mk.injEq, and_true] at h
        rw [← h]
        exact parseInt_sound _ hr
    · intro h
      have hc := parseInt_complete _ v h
      rw [folderIDConvert_none (by rw [hc]), hc]
  · constructor
    · rintro ⟨e, he⟩ ⟨v, hv⟩
      have hc := parseInt_complete _ v hv
      rw [folderIDConvert_none (by rw [hc])] at he
      simp at he
    · intro h
      cases hr : (parseInt cfg.downloadFolderID.data 10 32).2 with
      | some e => exact ⟨e, folderIDConvert_some hr⟩
      | none => exact absurd ⟨_, parseInt_sound _ hr⟩ h
  · exact folderIDConvert_some
      (show (parseInt "2147483648".data 10 32).2 = some .errRange by decide)
  · exact folderIDConvert_of_parse
      (show parseInt "2147483647".data 10 32 = (2147483647, none) by decide)
  · exact folderIDConvert_of_parse
      (show parseInt "-2147483648".data 10 32 = (-2147483648, none) by decide)

/-! ## Properties: the uploaders -/

theorem osOpen_world (w : World) (name : String) :
    (osOpen w name).2 = { w with ops := w.ops ++ [FsOp.osOpen name] } := by
  unfold osOpen
  split <;> rfl

theorem readFile_world (w : World) (name : String) :
    (readFile w name).2 = { w with ops := w.ops ++ [FsOp.readFile name] } := by
  unfold readFile
  split <;> rfl

theorem osOpen_eq (w : World) (name : String) :
    osOpen w name = ((osOpen w name).1, { w with ops := w.ops ++ [FsOp.osOpen name] }) := by
  rw [← osOpen_world]

theorem readFile_eq (w : World) (name : String) :
    readFile w name = ((readFile w name).1, { w with ops := w.ops ++ [FsOp.readFile name] }) := by
  rw [← readFile_world]

theorem osOpen_println (w : World) (o : Output) (name : String) :
    (osOpen (w.println o) name).1 = (osOpen w name).1 := by
  unfold osOpen World.println
  simp only
  split <;> rfl

theorem readFile_println (w : World) (o : Output) (name : String) :
    (readFile (w.println o) name).1 = (readFile w name).1 := by
  unfold readFile World.println
  simp only
  split <;> rfl

theorem upload_parse_error {cfg : Config} {e : GoError} (filename filepath : String)
    (client : Client) (w : World) (h : (folderIDConvert cfg).2 = some e) :
    uploadTorrentToPutio cfg filename filepath client w = (.returned (some e), w) := by
  simp only [uploadTorrentToPutio, h]

theorem upload_open_error {cfg : Config} (filename filepath : String)
    (client : Client) (w : World) (h : (folderIDConvert cfg).2 = none)
    (ho : (osOpen w filename).1 = none) :
    uploadTorrentToPutio cfg filename filepath client w =
      (.returned (some .openfileErr),
        { w with ops := w.ops ++ [FsOp.osOpen filename], out := w.out ++ [.reading] }) := by
  have ho2 := osOpen_eq (w.println .reading) filename
  rw [osOpen_println, ho] at ho2
  simp only [uploadTorrentToPutio, h, ho2]
  rfl

theorem upload_opened {cfg : Config} (filename filepath : String)
    (client : Client) (w : World) (h : (folderIDConvert cfg).2 = none) {file : Handle}
    (ho : (osOpen w filename).1 = some file) :
    uploadTorrentToPutio cfg filename filepath client w =
      match client w.calls (.upload file filename (folderIDConvert cfg).1) with
      | .ok true =>
        (.returned none,
          { w with
            calls := w.calls ++ [.upload file filename (folderIDConvert cfg).1],
            ops := w.ops ++ [FsOp.osOpen filename],
            out := w.out ++ [.reading, .transferred filename] })
      | .ok false =>
        (.panicked,
          { w with
            calls := w.calls ++ [.upload file filename (folderIDConvert cfg).1],
            ops := w.ops ++ [FsOp.osOpen filename],
            out := w.out ++ [.reading] })
      | .error =>
        (.returned (some .uploadErr),
          { w with
            calls := w.calls ++ [.upload file filename (folderIDConvert cfg).1],
            ops := w.ops ++ [FsOp.osOpen filename],
            out := w.out ++ [.reading] }) := by
  have ho2 := osOpen_eq (w.println .reading) filename
  rw [osOpen_println, ho] at ho2
  simp only [uploadTorrentToPutio, h, ho2]
  simp only [remoteCall, World.println]
  rcases hc : client w.calls (.upload file filename (folderIDConvert cfg).1) with _ | t
  · simp
  · cases t <;> simp

theorem transfer_parse_error {cfg : Config} {e : GoError} (filename filepath : String)
    (client : Client) (w : World) (h : (folderIDConvert cfg).2 = some e) :
    transferMagnetToPutio cfg filename filepath client w = (.returned (some e), w) := by
  simp only [transferMagnetToPutio, h]

theorem transfer_read_error {cfg : Config} (filename filepath : String)
    (client : Client) (w : World) (h : (folderIDConvert cfg).2 = none)
    (ho : (readFile w filename).1 = none) :
    transferMagnetToPutio cfg filename filepath client w =
      (.returned (some (.readFileErr filename)),
        { w with ops := w.ops ++ [FsOp.readFile filename], out := w.out ++ [.reading] }) := by
  have ho2 := readFile_eq (w.println .reading) filename
  rw [readFile_println, ho] at ho2
  simp only [transferMagnetToPutio, h, ho2]
  rfl

theorem transfer_read {cfg : Config} (filename filepath : String)
    (client : Client) (w : World) (h : (folderIDConvert cfg).2 = none) {text : String}
    (ho : (readFile w filename).1 = some text) :
    transferMagnetToPutio cfg filename filepath client w =
      match client w.calls (.transfersAdd text (folderIDConvert cfg).1 "") with
      | .ok _ =>
        (.returned none,
          { w with
            calls := w.calls ++ [.transfersAdd text (folderIDConvert cfg).1 ""],
            ops := w.ops ++ [FsOp.readFile filename],
            out := w.out ++ [.reading, .magnetData text, .transferred filename] })
      | .error =>
        (.returned (some .transferErr),
          { w with
            calls := w.calls ++ [.transfersAdd text (folderIDConvert cfg).1 ""],
            ops := w.ops ++ [FsOp.readFile filename],
            out := w.out ++ [.reading, .magnetData text] }) := by
  have ho2 := readFile_eq (w.println .reading) filename
  rw [readFile_println, ho] at ho2
  simp only [transferMagnetToPutio, h, ho2]
  simp only [remoteCall, World.println]
  rcases hc : client w.calls (.transfersAdd text (folderIDConvert cfg).1 "") with _ | t <;> simp

/-- The uploader never changes the filesystem nor what may be removed. -/
theorem uploadTorrentToPutio_fs (cfg : Config) (filename filepath : String) (client : Client)
    (w : World) :
    (uploadTorrentToPutio cfg filename filepath client w).2.fs = w.fs ∧
      (uploadTorrentToPutio cfg filename filepath client w).2.canRemove = w.canRemove := by
  cases h : (folderIDConvert cfg).2 with
  | some e => rw [upload_parse_error _ _ _ _ h]; exact ⟨rfl, rfl⟩
  | none =>
    cases ho : (osOpen w filename).1 with
    | none => rw [upload_open_error _ _ _ _ h ho]; exact ⟨rfl, rfl⟩
    | some file =>
      rw [upload_opened _ _ _ _ h ho]
      split <;> exact ⟨rfl, rfl⟩

/-- The transfer never changes the filesystem nor what may be removed. -/
theorem transferMagnetToPutio_fs (cfg : Config) (filename filepath : String) (client : Client)
    (w : World) :
    (transferMagnetToPutio cfg filename filepath client w).2.fs = w.fs ∧
      (transferMagnetToPutio cfg filename filepath client w).2.canRemove = w.canRemove := by
  cases h : (folderIDConvert cfg).2 with
  | some e => rw [transfer_parse_error _ _ _ _ h]; exact ⟨rfl, rfl⟩
  | none =>
    cases ho : (readFile w filename).1 with
    | none => rw [transfer_read_error _ _ _ _ h ho]; exact ⟨rfl, rfl⟩
    | some text =>
      rw [transfer_read _ _ _ _ h ho]
      split <;> exact ⟨rfl, rfl⟩

/-- The transfer never panics. -/
theorem transferMagnetToPutio_returns (cfg : Config) (filename filepath : String)
    (client : Client) (w : World) :
    (transferMagnetToPutio cfg filename filepath client w).1 ≠ .panicked := by
  cases h : (folderIDConvert cfg).2 with
  | some e => rw [transfer_parse_error _ _ _ _ h]; simp
  | none =>
    cases ho : (readFile w filename).1 with
    | none => rw [transfer_read_error _ _ _ _ h ho]; simp
    | some text =>
      rw [transfer_read _ _ _ _ h ho]
      split <;> simp

/-- The uploader panics only on an upload answered without a transfer. -/
theorem uploadTorrentToPutio_returns (cfg : Config) (filename filepath : String)
    (client : Client) (w : World)
    (hc : ∀ past r name parent, client past (.upload r name parent) ≠ .ok false) :
    (uploadTorrentToPutio cfg filename filepath client w).1 ≠ .panicked := by
  cases h : (folderIDConvert cfg).2 with
  | some e => rw [upload_parse_error _ _ _ _ h]; simp
  | none =>
    cases ho : (osOpen w filename).1 with
    | none => rw [upload_open_error _ _ _ _ h ho]; simp
    | some file =>
      rw [upload_opened _ _ _ _ h ho]
      split
      · simp
      · rename_i heq; exact absurd heq (hc _ _ _ _)
      · simp

/-- Against a client that always fails the uploader returns an error. -/
theorem uploadTorrentToPutio_fails (cfg : Config) (filename filepath : String) (client : Client)
    (w : World) (hc : ∀ past call, client past call = .error) :
    ∃ err, (uploadTorrentToPutio cfg filename filepath client w).1 = .returned (some err) := by
  cases h : (folderIDConvert cfg).2 with
  | some e => rw [upload_parse_error _ _ _ _ h]; exact ⟨_, rfl⟩
  | none =>
    cases ho : (osOpen w filename).1 with
    | none => rw [upload_open_error _ _ _ _ h ho]; exact ⟨_, rfl⟩
    | some file => rw [upload_opened _ _ _ _ h ho, hc]; exact ⟨_, rfl⟩

/-- Against a client that always fails the transfer returns an error. -/
theorem transferMagnetToPutio_fails (cfg : Config) (filename filepath : String)
    (client : Client) (w : World) (hc : ∀ past call, client past call = .error) :
    ∃ err, (transferMagnetToPutio cfg filename filepath client w).1 = .returned (some err) := by
  cases h : (folderIDConvert cfg).2 with
  | some e => rw [transfer_parse_error _ _ _ _ h]; exact ⟨_, rfl⟩
  | none =>
    cases ho : (readFile w filename).1 with
    | none => rw [transfer_read_error _ _ _ _ h ho]; exact ⟨_, rfl⟩
    | some text => rw [transfer_read _ _ _ _ h ho, hc]; exact ⟨_, rfl⟩

/-! ## Properties: the intake -/

theorem checkFileType_magnet {name : String} (h : EndsWith name ".magnet") :
    checkFileType name = ("magnet", none) := by
  have hm := (hasSuffix_iff name ".magnet").mpr h
  simp only [checkFileType, hm, if_true]

theorem checkFileType_torrent {name : String} (h : EndsWith name ".torrent") :
    checkFileType name = ("torrent", none) := by
  have ht := (hasSuffix_iff name ".torrent").mpr h
  have hm : hasSuffix name ".magnet" = false := by
    cases hs : hasSuffix name ".magnet" with
    | false => rfl
    | true => exact absurd ⟨(hasSuffix_iff _ _).mp hs, h⟩ (not_magnet_and_torrent name)
  simp only [checkFileType, hm, ht, if_true, Bool.false_eq_true, if_false]

theorem checkFileType_other {name : String}
    (h : ¬ EndsWith name ".magnet" ∧ ¬ EndsWith name ".torrent") :
    checkFileType name = ("", some (.notTorrentOrMagnet name)) := by
  rw [← hasSuffix_iff, ← hasSuffix_iff, Bool.not_eq_true, Bool.not_eq_true] at h
  simp only [checkFileType, h.1, h.2, Bool.false_eq_true, if_false]

theorem prepareFile_torrent (cfg : Config) (event : Event) (client : Client) (w : World)
    (h : EndsWith event.name ".torrent") :
    prepareFile cfg event client w =
      afterUpload event.name .uploadFehler
        (uploadTorrentToPutio cfg event.name "" client (w.println (.neueDatei event.name))) := by
  simp only [prepareFile, checkFileType_torrent h, if_true]
  rcases uploadTorrentToPutio cfg event.name "" client (w.println (.neueDatei event.name))
    with ⟨(_ | err) | _, w1⟩ <;> rfl

theorem prepareFile_magnet (cfg : Config) (event : Event) (client : Client) (w : World)
    (h : EndsWith event.name ".magnet") :
    prepareFile cfg event client w =
      afterUpload event.name .transferFehler
        (transferMagnetToPutio cfg event.name "" client (w.println (.neueDatei event.name))) := by
  have hne : ¬ ("magnet" = "torrent") := by decide
  simp only [prepareFile, checkFileType_magnet h, if_true, if_neg hne]
  rcases transferMagnetToPutio cfg event.name "" client (w.println (.neueDatei event.name))
    with ⟨(_ | err) | _, w1⟩ <;> rfl

theorem prepareFile_other (cfg : Config) (event : Event) (client : Client) (w : World)
    (h : ¬ EndsWith event.name ".magnet" ∧ ¬ EndsWith event.name ".torrent") :
    prepareFile cfg event client w =
      (.returned (), w.println (.logErr (.notTorrentOrMagnet event.name))) := by
  simp only [prepareFile, checkFileType_other h]

theorem afterUpload_error (filename : String) (line : GoError → Output)
    (r : Ending (Option GoError) × World) {err : GoError} (h : r.1 = .returned (some err)) :
    afterUpload filename line r = (.returned (), r.2.println (line err)) := by
  obtain ⟨e, w⟩ := r
  simp only at h
  subst h
  rfl

theorem afterUpload_nil (filename : String) (line : GoError → Output)
    (r : Ending (Option GoError) × World) (h : r.1 = .returned none) :
    afterUpload filename line r = (.returned (), osRemove r.2 filename) := by
  obtain ⟨e, w⟩ := r
  simp only at h
  subst h
  rfl

theorem afterUpload_panic (filename : String) (line : GoError → Output)
    (r : Ending (Option GoError) × World) (h : r.1 = .panicked) :
    afterUpload filename line r = (.panicked, r.2) := by
  obtain ⟨e, w⟩ := r
  simp only at h
  subst h
  rfl

theorem afterUpload_returned (filename : String) (line : GoError → Output)
    (r : Ending (Option GoError) × World) (h : r.1 ≠ .panicked) :
    (afterUpload filename line r).1 = .returned () := by
  obtain ⟨(_ | err) | _, w⟩ := r
  · rfl
  · rfl
  · exact absurd rfl h

theorem osRemove_fs_other (w : World) (name q : String) (h : q ≠ name) :
    (osRemove w name).fs q = w.fs q := by
  unfold osRemove
  split
  · split <;> simp [h]
  · rfl

theorem osRemove_calls (w : World) (name : String) : (osRemove w name).calls = w.calls := by
  unfold osRemove
  split
  · split <;> rfl
  · rfl

theorem osRemove_canRemove (w : World) (name : String) :
    (osRemove w name).canRemove = w.canRemove := by
  unfold osRemove
  split
  · split <;> rfl
  · rfl

theorem afterUpload_calls (filename : String) (line : GoError → Output)
    (r : Ending (Option GoError) × World) :
    (afterUpload filename line r).2.calls = r.2.calls := by
  obtain ⟨(_ | err) | _, w⟩ := r
  · exact osRemove_calls _ _
  · rfl
  · rfl

theorem afterUpload_canRemove (filename : String) (line : GoError → Output)
    (r : Ending (Option GoError) × World) :
    (afterUpload filename line r).2.canRemove = r.2.canRemove := by
  obtain ⟨(_ | err) | _, w⟩ := r
  · exact osRemove_canRemove _ _
  · rfl
  · rfl

theorem afterUpload_fs_other (filename : String) (line : GoError → Output)
    (r : Ending (Option GoError) × World) (q : String) (hq : q ≠ filename) :
    (afterUpload filename line r).2.fs q = r.2.fs q := by
  obtain ⟨(_ | err) | _, w⟩ := r
  · exact osRemove_fs_other _ _ _ hq
  · rfl
  · rfl

/-- Intake whose upload or transfer step returns an error returns and keeps
the filesystem. -/
theorem prepareFile_of_error (cfg : Config) (event : Event) (client : Client) (w : World)
    (hu : EndsWith event.name ".torrent" →
      ∃ err, (uploadTorrentToPutio cfg event.name "" client
        (w.println (.neueDatei event.name))).1 = .returned (some err))
    (ht : EndsWith event.name ".magnet" →
      ∃ err, (transferMagnetToPutio cfg event.name "" client
        (w.println (.neueDatei event.name))).1 = .returned (some err)) :
    (prepareFile cfg event client w).1 = .returned () ∧
      (prepareFile cfg event client w).2.fs = w.fs := by
  by_cases hm : EndsWith event.name ".magnet"
  · obtain ⟨err, he⟩ := ht hm
    rw [prepareFile_magnet cfg event client w hm, afterUpload_error _ _ _ he]
    exact ⟨rfl,
      (transferMagnetToPutio_fs cfg event.name "" client (w.println (.neueDatei event.name))).1⟩
  · by_cases hto : EndsWith event.name ".torrent"
    · obtain ⟨err, he⟩ := hu hto
      rw [prepareFile_torrent cfg event client w hto, afterUpload_error _ _ _ he]
      exact ⟨rfl,
        (uploadTorrentToPutio_fs cfg event.name "" client (w.println (.neueDatei event.name))).1⟩
    · rw [prepareFile_other cfg event client w ⟨hm, hto⟩]
      exact ⟨rfl, rfl⟩

/-- C3: for a name ending in ".torrent" or ".magnet", intake whose upload
or transfer step returns an error (the folder id does not parse, the file
cannot be opened or read, or the remote call fails) returns and leaves the
filesystem as it was, the file included; against a client that always fails
this holds after any number of repeated intakes of the same event. -/
theorem prepareFile_failure_keeps_file (cfg : Config) (event : Event) (client : Client)
    (w : World)
    (hfail :
      (EndsWith event.name ".torrent" ∧
        ∃ err, (uploadTorrentToPutio cfg event.name "" client
          (w.println (.neueDatei event.name))).1 = .returned (some err)) ∨
      (EndsWith event.name ".magnet" ∧
        ∃ err, (transferMagnetToPutio cfg event.name "" client
          (w.println (.neueDatei event.name))).1 = .returned (some err))) :
    (prepareFile cfg event client w).1 = .returned () ∧
    (prepareFile cfg event client w).2.fs = w.fs ∧
    (prepareFile cfg event client w).2.fs event.name = w.fs event.name ∧
    ((∀ past call, client past call = .error) →
      ∀ n : Nat,
        ((fun v => (prepareFile cfg event client v).2)^[n] w).fs = w.fs ∧
        ((fun v => (prepareFile cfg event client v).2)^[n] w).fs event.name =
          w.fs event.name) := by
  have hfs := prepareFile_of_error cfg event client w
    (by
      intro ht
      rcases hfail with h | h
      · exact h.2
      · exact absurd ⟨h.1, ht⟩ (not_magnet_and_torrent _))
    (by
      intro hm
      rcases hfail with h | h
      · exact absurd ⟨hm, h.1⟩ (not_magnet_and_torrent _)
      · exact h.2)
  refine ⟨hfs.1, hfs.2, by rw [hfs.2], ?_⟩
  intro hc n
  have hn : ((fun v => (prepareFile cfg event client v).2)^[n] w).fs = w.fs := by
    induction n with
    | zero => rfl
    | succ k ih =>
      rw [Function.iterate_succ_apply']
      rw [(prepareFile_of_error cfg event client _
        (fun _ => uploadTorrentToPutio_fails _ _ _ _ _ hc)
        (fun _ => transferMagnetToPutio_fails _ _ _ _ _ hc)).2]
      exact ih
  exact ⟨hn, by rw [hn]⟩

theorem osOpen_file {w : World} {name content : String}
    (h : w.fs name = some (.file content true)) : (osOpen w name).1 = some (.file content) := by
  simp only [osOpen, h]

theorem readFile_file {w : World} {name content : String}
    (h : w.fs name = some (.file content true)) : (readFile w name).1 = some content := by
  simp only [readFile, h]

theorem reply_ok_true {client : Client}
    (hclient : ∀ past call, client past call ≠ .error)
    (htransfer : ∀ past r name parent, client past (.upload r name parent) ≠ .ok false)
    (past : List RemoteCall) (r : Handle) (name : String) (parent : Int) :
    client past (.upload r name parent) = .ok true := by
  rcases hr : client past (.upload r name parent) with _ | t
  · exact absurd hr (hclient _ _)
  · cases t
    · exact absurd hr (htransfer _ _ _ _)
    · rfl

theorem reply_ok {client : Client} (hclient : ∀ past call, client past call ≠ .error)
    (past : List RemoteCall) (call : RemoteCall) : ∃ t, client past call = .ok t := by
  rcases hr : client past call with _ | t
  · exact absurd hr (hclient _ _)
  · exact ⟨t, rfl⟩

/-- C4, as amended: for an existing readable file that the process may
remove, whose name ends in ".torrent" or ".magnet", a folder id that parses
and a client that always succeeds and answers no upload without a transfer,
intake returns, removes the file, leaves every other path as it was, and
makes exactly one remote call: for ".torrent" an upload of the content of
the file to the configured folder, for ".magnet" a transfer of the whole
text of the file to the configured folder with an empty callback. -/
theorem prepareFile_success (cfg : Config) (event : Event) (client : Client) (w : World)
    (content : String) (folderID : Int)
    (hname : EndsWith event.name ".torrent" ∨ EndsWith event.name ".magnet")
    (hfile : w.fs event.name = some (.file content true))
    (hremove : w.canRemove event.name = true)
    (hid : folderIDConvert cfg = (folderID, none))
    (hclient : ∀ past call, client past call ≠ .error)
    (htransfer : ∀ past r name parent, client past (.upload r name parent) ≠ .ok false) :
    (prepareFile cfg event client w).1 = .returned () ∧
    (prepareFile cfg event client w).2.fs event.name = none ∧
    (∀ q, q ≠ event.name → (prepareFile cfg event client w).2.fs q = w.fs q) ∧
    (EndsWith event.name ".torrent" →
      (prepareFile cfg event client w).2.calls =
        w.calls ++ [.upload (.file content) event.name folderID]) ∧
    (EndsWith event.name ".magnet" →
      (prepareFile cfg event client w).2.calls =
        w.calls ++ [.transfersAdd content folderID ""]) := by
  have hid2 : (folderIDConvert cfg).2 = none := by rw [hid]
  have hid1 : (folderIDConvert cfg).1 = folderID := by rw [hid]
  have hfile2 : (w.println (.neueDatei event.name)).fs event.name =
      some (.file content true) := hfile
  have key : (prepareFile cfg event client w).1 = .returned () ∧
      (prepareFile cfg event client w).2.fs =
        (fun p => if p = event.name then none else w.fs p) ∧
      (EndsWith event.name ".torrent" →
        (prepareFile cfg event client w).2.calls =
          w.calls ++ [.upload (.file content) event.name folderID]) ∧
      (EndsWith event.name ".magnet" →
        (prepareFile cfg event client w).2.calls =
          w.calls ++ [.transfersAdd content folderID ""]) := by
    rcases hname with ht | hm
    · have hnm : ¬ EndsWith event.name ".magnet" :=
        fun hm => not_magnet_and_torrent _ ⟨hm, ht⟩
      rw [prepareFile_torrent cfg event client w ht,
        upload_opened _ _ _ _ hid2 (osOpen_file hfile2),
        reply_ok_true hclient htransfer]
      simp only [afterUpload, osRemove, World.println, hfile, hremove, hid1, if_true]
      exact ⟨trivial, trivial, fun _ => trivial, fun hm => absurd hm hnm⟩
    · have hnt : ¬ EndsWith event.name ".torrent" :=
        fun ht => not_magnet_and_torrent _ ⟨hm, ht⟩
      obtain ⟨t, hr⟩ := reply_ok hclient (w.println (.neueDatei event.name)).calls
        (.transfersAdd content (folderIDConvert cfg).1 "")
      rw [prepareFile_magnet cfg event client w hm,
        transfer_read _ _ _ _ hid2 (readFile_file hfile2), hr]
      simp only [afterUpload, osRemove, World.println, hfile, hremove, hid1, if_true]
      exact ⟨trivial, trivial, fun ht => absurd ht hnt, fun _ => trivial⟩
  refine ⟨key.1, ?_, ?_, key.2.2.1, key.2.2.2⟩
  · rw [key.2.1]; simp
  · intro q hq
    rw [key.2.1]
    simp [hq]

/-- C8: for a name ending in neither ".magnet" nor ".torrent", intake makes
no remote call, performs no file operation (no open, no read, no remove),
leaves the filesystem as it was and returns to its caller after logging the
error of the classifier. -/
theorem prepareFile_unrecognised (cfg : Config) (event : Event) (client : Client) (w : World)
    (hname : ¬ EndsWith event.name ".magnet" ∧ ¬ EndsWith event.name ".torrent") :
    (prepareFile cfg event client w).1 = .returned () ∧
    (prepareFile cfg event client w).2.calls = w.calls ∧
    (prepareFile cfg event client w).2.ops = w.ops ∧
    (prepareFile cfg event client w).2.fs = w.fs ∧
    (prepareFile cfg event client w).2.canRemove = w.canRemove ∧
    (prepareFile cfg event client w).2.out =
      w.out ++ [.logErr (.notTorrentOrMagnet event.name)] := by
  rw [prepareFile_other cfg event client w hname]
  exact ⟨rfl, rfl, rfl, rfl, rfl, rfl⟩

/-! ## Properties: the watcher loop -/

theorem watchLoop_events (es : List Event) :
    ∀ st : LoopState, (watchLoop (es.map Msg.event) st).1 = .running ∧
      (watchLoop (es.map Msg.event) st).2.spawned =
        st.spawned ++ es.filter (fun e => e.has Create) := by
  induction es with
  | nil => intro st; simp [watchLoop]
  | cons e es ih =>
    intro st
    simp only [List.map_cons, watchLoop, watchStep]
    cases h : e.has Create
    · simp only [Bool.false_eq_true, if_false]
      rw [(ih _).1, (ih _).2]
      simp [List.filter_cons, h]
    · simp only [if_true]
      rw [(ih _).1, (ih _).2]
      simp [List.filter_cons, h]

/-- C9: an event received by the loop of `watchFolder` starts exactly one
intake task, for that event, when it has the Create flag, and none when it
has not (a pure Write, Remove, Rename or Chmod event); the loop goes on, and
over any sequence of events the tasks started are the events with the
Create flag, in order. -/
theorem watchStep_spawns (st : LoopState) (e : Event) :
    (watchStep st (.event e)).1 = .running ∧
    (watchStep st (.event e)).2.spawned =
      st.spawned ++ (if e.has Create then [e] else []) ∧
    (e.has Create = true ↔ e.op % 2 = 1) ∧
    (∀ name, Event.has ⟨name, Write⟩ Create = false ∧ Event.has ⟨name, Remove⟩ Create = false ∧
      Event.has ⟨name, Rename⟩ Create = false ∧ Event.has ⟨name, Chmod⟩ Create = false ∧
      Event.has ⟨name, Create⟩ Create = true) ∧
    (∀ es : List Event,
      (watchLoop (es.map Msg.event) st).2.spawned =
        st.spawned ++ es.filter (fun e => e.has Create)) := by
  refine ⟨?_, ?_, ?_, ?_, fun es => (watchLoop_events es st).2⟩
  · simp only [watchStep]
    split <;> rfl
  · simp only [watchStep]
    split <;> simp
  · simp only [Event.has, Create, Nat.and_one_is_mod, beq_iff_eq]
  · intro name
    refine ⟨?_, ?_, ?_, ?_, ?_⟩ <;> simp only [Event.has, Create, Write, Remove, Rename, Chmod] <;>
      decide

/-! ## Properties: the startup sweep -/

theorem endsWith_iff_suffix (s suffix : String) :
    EndsWith s suffix ↔ suffix.data <:+ s.data := by
  constructor
  · rintro ⟨p, rfl⟩
    exact ⟨p.data, by simp⟩
  · rintro ⟨t, ht⟩
    exact ⟨⟨t⟩, String.ext (by simp [ht])⟩

theorem suffix_after_separator (s n : List Char) (hs : '/' ∉ s) :
    ∀ a : List Char, s <:+ a ++ '/' :: n ↔ s <:+ n := by
  intro a
  induction a with
  | nil =>
    rw [List.nil_append, List.suffix_cons_iff]
    constructor
    · rintro (h | h)
      · exact absurd (h ▸ List.mem_cons_self _ _) hs
      · exact h
    · exact Or.inr
  | cons x a ih =>
    rw [List.cons_append, List.suffix_cons_iff, ih]
    constructor
    · rintro (h | h)
      · exact absurd (h ▸ List.mem_cons_of_mem _ (List.mem_append_right _
          (List.mem_cons_self _ _))) hs
      · exact h
    · exact Or.inr

theorem entryPath_data (cfg : Config) (f : FileInfo) :
    (entryPath cfg f).data = cfg.folderPath.data ++ '/' :: f.name.data := by
  simp [entryPath, String.data_append]

theorem endsWith_entryPath (cfg : Config) (f : FileInfo) (suffix : String)
    (hs : '/' ∉ suffix.data) :
    EndsWith (entryPath cfg f) suffix ↔ EndsWith f.name suffix := by
  rw [endsWith_iff_suffix, endsWith_iff_suffix, entryPath_data]
  exact suffix_after_separator _ _ hs _

theorem endsWith_entryPath_torrent (cfg : Config) (f : FileInfo) :
    EndsWith (entryPath cfg f) ".torrent" ↔ EndsWith f.name ".torrent" :=
  endsWith_entryPath cfg f ".torrent" (by decide)

theorem endsWith_entryPath_magnet (cfg : Config) (f : FileInfo) :
    EndsWith (entryPath cfg f) ".magnet" ↔ EndsWith f.name ".magnet" :=
  endsWith_entryPath cfg f ".magnet" (by decide)

theorem entryPath_inj (cfg : Config) {f g : FileInfo} (h : entryPath cfg f = entryPath cfg g) :
    f.name = g.name := by
  have hd := congrArg String.data h
  rw [entryPath_data, entryPath_data] at hd
  have := List.append_cancel_left hd
  exact String.ext (List.cons.inj this).2

theorem sweepStep_skip (cfg : Config) (client : Client) (w : World) (f : FileInfo)
    (h : isCandidate f = false) : sweepStep cfg client w f = (.returned (), w) := by
  cases hd : f.isDir with
  | true => simp [sweepStep, hd]
  | false =>
    simp only [isCandidate, hd, Bool.not_false, Bool.true_and, Bool.or_eq_false_iff] at h
    have hm : ¬ EndsWith (entryPath cfg f) ".magnet" := by
      rw [endsWith_entryPath_magnet, ← hasSuffix_iff, h.2]; simp
    have ht : ¬ EndsWith (entryPath cfg f) ".torrent" := by
      rw [endsWith_entryPath_torrent, ← hasSuffix_iff, h.1]; simp
    have hck := checkFileType_other ⟨hm, ht⟩
    unfold entryPath at hck
    simp only [sweepStep, hd, hck, Bool.false_eq_true, if_false]

theorem sweepStep_torrent (cfg : Config) (client : Client) (w : World) (f : FileInfo)
    (hd : f.isDir = false) (h : EndsWith f.name ".torrent") :
    sweepStep cfg client w f =
      afterUpload (entryPath cfg f) .uploadFehler
        (uploadTorrentToPutio cfg (entryPath cfg f) "" client w) := by
  have hck := checkFileType_torrent ((endsWith_entryPath_torrent cfg f).mpr h)
  unfold entryPath at hck ⊢
  simp only [sweepStep, hd, hck, Bool.false_eq_true, if_false, if_true]
  rcases uploadTorrentToPutio cfg (cfg.folderPath ++ "/" ++ f.name) "" client w
    with ⟨(_ | err) | _, w1⟩ <;> rfl

theorem sweepStep_magnet (cfg : Config) (client : Client) (w : World) (f : FileInfo)
    (hd : f.isDir = false) (h : EndsWith f.name ".magnet") :
    sweepStep cfg client w f =
      afterUpload (entryPath cfg f) .transferFehler
        (transferMagnetToPutio cfg (entryPath cfg f) "" client w) := by
  have hck := checkFileType_magnet ((endsWith_entryPath_magnet cfg f).mpr h)
  have hne : ¬ ("magnet" = "torrent") := by decide
  unfold entryPath at hck ⊢
  simp only [sweepStep, hd, hck, Bool.false_eq_true, if_false, if_true, if_neg hne]
  rcases transferMagnetToPutio cfg (cfg.folderPath ++ "/" ++ f.name) "" client w
    with ⟨(_ | err) | _, w1⟩ <;> rfl

/-- The three ways a listed entry is handled. -/
theorem isCandidate_cases (f : FileInfo) :
    isCandidate f = false ∨
    (isCandidate f = true ∧ f.isDir = false ∧ EndsWith f.name ".torrent" ∧
      hasSuffix f.name ".magnet" = false) ∨
    (isCandidate f = true ∧ f.isDir = false ∧ EndsWith f.name ".magnet" ∧
      hasSuffix f.name ".magnet" = true) := by
  have hx := not_magnet_and_torrent f.name
  rw [← hasSuffix_iff, ← hasSuffix_iff] at hx
  simp only [← hasSuffix_iff, isCandidate]
  cases f.isDir <;> cases hm : hasSuffix f.name ".magnet" <;>
    cases ht : hasSuffix f.name ".torrent" <;> simp_all

/-- A step of the sweep touches no path but that of its entry. -/
theorem sweepStep_fs_other (cfg : Config) (client : Client) (w : World) (f : FileInfo)
    (q : String) (hq : q ≠ entryPath cfg f) : (sweepStep cfg client w f).2.fs q = w.fs q := by
  rcases isCandidate_cases f with h | ⟨_, hd, ht, _⟩ | ⟨_, hd, hm, _⟩
  · rw [sweepStep_skip cfg client w f h]
  · rw [sweepStep_torrent cfg client w f hd ht, afterUpload_fs_other _ _ _ _ hq,
      (uploadTorrentToPutio_fs cfg (entryPath cfg f) "" client w).1]
  · rw [sweepStep_magnet cfg client w f hd hm, afterUpload_fs_other _ _ _ _ hq,
      (transferMagnetToPutio_fs cfg (entryPath cfg f) "" client w).1]

/-- A step of the sweep returns unless an upload is answered without a
transfer. -/
theorem sweepStep_returned (cfg : Config) (client : Client) (w : World) (f : FileInfo)
    (htransfer : ∀ past r name parent, client past (.upload r name parent) ≠ .ok false) :
    (sweepStep cfg client w f).1 = .returned () := by
  rcases isCandidate_cases f with h | ⟨_, hd, ht, _⟩ | ⟨_, hd, hm, _⟩
  · rw [sweepStep_skip cfg client w f h]
  · rw [sweepStep_torrent cfg client w f hd ht]
    exact afterUpload_returned _ _ _ (uploadTorrentToPutio_returns _ _ _ _ _ htransfer)
  · rw [sweepStep_magnet cfg client w f hd hm]
    exact afterUpload_returned _ _ _ (transferMagnetToPutio_returns _ _ _ _ _)

/-- A step of the sweep on a readable candidate makes its one call. -/
theorem sweepStep_calls (cfg : Config) (client : Client) (w : World) (f : FileInfo)
    (folderID : Int) (hid : folderIDConvert cfg = (folderID, none)) (hc : isCandidate f = true)
    {content : String} (hfile : w.fs (entryPath cfg f) = some (.file content true)) :
    (sweepStep cfg client w f).2.calls = w.calls ++ [sweepCall cfg folderID w f] := by
  have hid2 : (folderIDConvert cfg).2 = none := by rw [hid]
  have hid1 : (folderIDConvert cfg).1 = folderID := by rw [hid]
  rcases isCandidate_cases f with h | ⟨_, hd, ht, hnm⟩ | ⟨_, hd, hm, hym⟩
  · rw [hc] at h; exact absurd h (by simp)
  · rw [sweepStep_torrent cfg client w f hd ht, afterUpload_calls,
      upload_opened _ _ _ _ hid2 (osOpen_file hfile), hid1]
    simp only [sweepCall, hfile, hnm, Bool.false_eq_true, if_false]
    split <;> rfl
  · rw [sweepStep_magnet cfg client w f hd hm, afterUpload_calls,
      transfer_read _ _ _ _ hid2 (readFile_file hfile), hid1]
    simp only [sweepCall, hfile, hym, if_true]
    split <;> rfl

theorem sweep_cons (cfg : Config) (client : Client) (f : FileInfo) (files : List FileInfo)
    (w : World) :
    sweep cfg client (f :: files) w =
      if (sweepStep cfg client w f).1 = .panicked then
        (.panicked, (sweepStep cfg client w f).2)
      else sweep cfg client files (sweepStep cfg client w f).2 := by
  rw [sweep]
  rcases sweepStep cfg client w f with ⟨_ | _, w1⟩ <;> simp

/-- The sweep touches no path but those of its candidates. -/
theorem sweep_fs_other (cfg : Config) (client : Client) (q : String) (files : List FileInfo) :
    ∀ w : World, (∀ f ∈ files, isCandidate f = true → q ≠ entryPath cfg f) →
      (sweep cfg client files w).2.fs q = w.fs q := by
  induction files with
  | nil => intro w _; rfl
  | cons f files ih =>
    intro w hq
    have hstep : (sweepStep cfg client w f).2.fs q = w.fs q := by
      cases hc : isCandidate f with
      | false => rw [sweepStep_skip cfg client w f hc]
      | true => exact sweepStep_fs_other cfg client w f q (hq f (List.mem_cons_self _ _) hc)
    rw [sweep_cons]
    split
    · exact hstep
    · rw [ih _ (fun g hg => hq g (List.mem_cons_of_mem _ hg)), hstep]

theorem sweepCall_congr (cfg : Config) (folderID : Int) (w w1 : World) (f : FileInfo)
    (h : w1.fs (entryPath cfg f) = w.fs (entryPath cfg f)) :
    sweepCall cfg folderID w1 f = sweepCall cfg folderID w f := by
  simp only [sweepCall, h]

theorem sweep_calls_aux (cfg : Config) (client : Client) (folderID : Int)
    (hid : folderIDConvert cfg = (folderID, none))
    (htransfer : ∀ past r name parent, client past (.upload r name parent) ≠ .ok false)
    (files : List FileInfo) :
    ∀ w : World, (files.map (fun f => f.name)).Nodup →
      (∀ f ∈ files, isCandidate f = true →
        ∃ content, w.fs (entryPath cfg f) = some (.file content true)) →
      (sweep cfg client files w).1 = .returned () ∧
      (sweep cfg client files w).2.calls =
        w.calls ++ (files.filter isCandidate).map (sweepCall cfg folderID w) := by
  induction files with
  | nil => intro w _ _; simp [sweep]
  | cons f files ih =>
    intro w hnd hread
    rw [List.map_cons, List.nodup_cons] at hnd
    have hother : ∀ g ∈ files,
        (sweepStep cfg client w f).2.fs (entryPath cfg g) = w.fs (entryPath cfg g) := by
      intro g hg
      apply sweepStep_fs_other
      intro heq
      exact hnd.1 (List.mem_map.mpr ⟨g, hg, entryPath_inj cfg heq⟩)
    have hread1 : ∀ g ∈ files, isCandidate g = true →
        ∃ content, (sweepStep cfg client w f).2.fs (entryPath cfg g) =
          some (.file content true) := by
      intro g hg hc
      rw [hother g hg]
      exact hread g (List.mem_cons_of_mem _ hg) hc
    have hmap :
        (files.filter isCandidate).map (sweepCall cfg folderID (sweepStep cfg client w f).2) =
          (files.filter isCandidate).map (sweepCall cfg folderID w) := by
      apply List.map_congr_left
      intro g hg
      exact sweepCall_congr cfg folderID w _ g (hother g (List.mem_filter.mp hg).1)
    have hret := sweepStep_returned cfg client w f htransfer
    have hnp : ¬ ((sweepStep cfg client w f).1 = .panicked) := by rw [hret]; simp
    rw [sweep_cons, if_neg hnp]
    refine ⟨(ih _ hnd.2 hread1).1, ?_⟩
    rw [(ih _ hnd.2 hread1).2, hmap]
    cases hc : isCandidate f with
    | false =>
      rw [sweepStep_skip cfg client w f hc]
      simp [List.filter_cons, hc]
    | true =>
      obtain ⟨content, hfile⟩ := hread f (List.mem_cons_self _ _) hc
      rw [sweepStep_calls cfg client w f folderID hid hc hfile]
      simp [List.filter_cons, hc]

theorem main_of_sweep_returned (cfg : Config) (client : Client) (files : List FileInfo)
    (w : World) (henv : checkEnvVariables cfg = none)
    (hret : (sweep cfg client files (w.println .started)).1 = .returned ()) :
    main cfg client (.ok files) w =
      .watchFolder (sweep cfg client files (w.println .started)).2 := by
  simp only [main, henv]
  rcases hs : sweep cfg client files (w.println .started) with ⟨_ | _, w1⟩
  · rfl
  · rw [hs] at hret
    exact absurd hret (by simp)

/-- C5, as amended: when the folder id parses, every listed file (names
distinct) whose name ends in ".torrent" or ".magnet" is a readable file and
the client answers no upload without a transfer, the startup sweep runs to
its end and makes one remote call for each such entry and for no other, in
listing order; directories and entries of another suffix, like every path
that is not such an entry's, are left as they were; with all three values
set, `main` runs this sweep and then reaches the watcher. -/
theorem sweep_calls (cfg : Config) (client : Client) (files : List FileInfo) (w : World)
    (folderID : Int)
    (hid : folderIDConvert cfg = (folderID, none))
    (hnames : (files.map (fun f => f.name)).Nodup)
    (hread : ∀ f ∈ files, isCandidate f = true →
      ∃ content, w.fs (entryPath cfg f) = some (.file content true))
    (htransfer : ∀ past r name parent, client past (.upload r name parent) ≠ .ok false) :
    (sweep cfg client files w).1 = .returned () ∧
    (sweep cfg client files w).2.calls =
      w.calls ++ (files.filter isCandidate).map (sweepCall cfg folderID w) ∧
    (∀ f ∈ files, isCandidate f = false →
      (sweep cfg client files w).2.fs (entryPath cfg f) = w.fs (entryPath cfg f)) ∧
    (∀ q, (∀ f ∈ files, isCandidate f = true → q ≠ entryPath cfg f) →
      (sweep cfg client files w).2.fs q = w.fs q) ∧
    (checkEnvVariables cfg = none →
      main cfg client (.ok files) w =
        .watchFolder (sweep cfg client files (w.println .started)).2) := by
  have haux := sweep_calls_aux cfg client folderID hid htransfer files w hnames hread
  refine ⟨haux.1, haux.2, ?_, fun q hq => sweep_fs_other cfg client q files w hq, ?_⟩
  · intro f hf hc
    apply sweep_fs_other
    intro g hg hgc heq
    have hname := entryPath_inj cfg heq
    have hfg : f = g := by
      by_contra hne
      have := List.inj_on_of_nodup_map hnames hf hg hname
      exact hne this
    rw [hfg, hgc] at hc
    exact absurd hc (by simp)
  · intro henv
    exact main_of_sweep_returned cfg client files w henv
      (sweep_calls_aux cfg client folderID hid htransfer files (w.println .started)
        hnames hread).1

theorem sweepStep_parse_error (cfg : Config) (client : Client) (w : World) (f : FileInfo)
    (e : NumErr) (hbad : folderIDConvert cfg = (0, some (.strconvErr e))) :
    sweepStep cfg client w f =
      (.returned (), if isCandidate f then w.println (parseErrorLine e f) else w) := by
  have hbad2 : (folderIDConvert cfg).2 = some (.strconvErr e) := by rw [hbad]
  rcases isCandidate_cases f with h | ⟨hc, hd, ht, hnm⟩ | ⟨hc, hd, hm, hym⟩
  · rw [sweepStep_skip cfg client w f h, h]; simp
  · rw [sweepStep_torrent cfg client w f hd ht, upload_parse_error _ _ _ _ hbad2, hc]
    simp [afterUpload, parseErrorLine, hnm]
  · rw [sweepStep_magnet cfg client w f hd hm, transfer_parse_error _ _ _ _ hbad2, hc]
    simp [afterUpload, parseErrorLine, hym]

theorem sweep_parse_error (cfg : Config) (client : Client) (e : NumErr)
    (hbad : folderIDConvert cfg = (0, some (.strconvErr e))) (files : List FileInfo) :
    ∀ w : World, sweep cfg client files w =
      (.returned (),
        { w with out := w.out ++ (files.filter isCandidate).map (parseErrorLine e) }) := by
  induction files with
  | nil => intro w; simp [sweep]
  | cons f files ih =>
    intro w
    rw [sweep_cons, sweepStep_parse_error cfg client w f e hbad]
    simp only [reduceCtorEq, if_false]
    rw [ih]
    cases hc : isCandidate f <;> simp [List.filter_cons, hc, World.println]

/-- C7, as amended: when all three values are set and the folder id does
not parse, `main` does not exit: the startup sweep runs, logs the parse
error once for each listed file whose name ends in ".torrent" or ".magnet",
makes no remote call, performs no file operation and changes no file, and
control reaches `watchFolder`. -/
theorem main_unparsable_folder_id (cfg : Config) (client : Client) (files : List FileInfo)
    (w : World) (e : NumErr)
    (hset : cfg.folderPath ≠ "" ∧ cfg.putioToken ≠ "" ∧ cfg.downloadFolderID ≠ "")
    (hbad : folderIDConvert cfg = (0, some (.strconvErr e))) :
    main cfg client (.ok files) w =
      .watchFolder
        { w with
          out := w.out ++ Output.started :: (files.filter isCandidate).map (parseErrorLine e) } := by
  have henv : checkEnvVariables cfg = none := by
    simp [checkEnvVariables, hset.1, hset.2.1, hset.2.2]
  simp only [main, henv, sweep_parse_error cfg client e hbad files, World.println]
  simp

/-- C6, as amended: the file name argument that `uploadTorrentToPutio`
passes to the upload operation of the client is the path it was given,
unchanged; the upload is made exactly when the folder id parses and the
path can be opened. -/
theorem upload_name_is_path (cfg : Config) (filename filepath : String) (client : Client)
    (w : World) (file : Handle) (hopen : (osOpen w filename).1 = some file) :
    (uploadTorrentToPutio cfg filename filepath client w).2.calls =
      if (folderIDConvert cfg).2 = none then
        w.calls ++ [.upload file filename (folderIDConvert cfg).1]
      else w.calls := by
  cases h : (folderIDConvert cfg).2 with
  | some e => rw [upload_parse_error _ _ _ _ h]; simp
  | none =>
    rw [upload_opened _ _ _ _ h hopen]
    split <;> simp

/-! ## The example directory -/

theorem not_endsWith_of_hasSuffix {s suffix : String} (h : hasSuffix s suffix = false) :
    ¬ EndsWith s suffix := by
  rw [← hasSuffix_iff, h]
  simp

/-- In the example, intake of `a.torrent` against a client that always fails
returns and keeps the filesystem, once and after any number of
repetitions. -/
theorem prepareFile_failure_keeps_file_witness :
    (prepareFile exampleConfig ⟨"/watch/a.torrent", Create⟩ alwaysFails exampleWorld).1 =
      .returned () ∧
    (prepareFile exampleConfig ⟨"/watch/a.torrent", Create⟩ alwaysFails exampleWorld).2.fs =
      exampleWorld.fs ∧
    (prepareFile exampleConfig ⟨"/watch/a.torrent", Create⟩ alwaysFails exampleWorld).2.fs
      "/watch/a.torrent" = some (.file "d8:announce" true) ∧
    ∀ n : Nat,
      ((fun v => (prepareFile exampleConfig ⟨"/watch/a.torrent", Create⟩ alwaysFails v).2)^[n]
        exampleWorld).fs "/watch/a.torrent" = some (.file "d8:announce" true) :=
  have h := prepareFile_failure_keeps_file exampleConfig ⟨"/watch/a.torrent", Create⟩
    alwaysFails exampleWorld (Or.inl ⟨⟨"/watch/a", rfl⟩, ⟨.uploadErr, by decide⟩⟩)
  ⟨h.1, h.2.1, h.2.2.1, fun n => (h.2.2.2 (fun _ _ => rfl) n).2⟩

/-- C4, as stated, fails: in the example directory made not writable, with
the folder id 12 and a client that always succeeds, intake of the readable
file `a.torrent` makes its upload and returns, `os.Remove` fails, its error
is not read, and the file is still there. -/
theorem prepareFile_success_counterexample :
    lockedWorld.fs "/watch/a.torrent" = some (.file "d8:announce" true) ∧
    folderIDConvert exampleConfig = (12, none) ∧
    (prepareFile exampleConfig ⟨"/watch/a.torrent", Create⟩ alwaysSucceeds lockedWorld).1 =
      .returned () ∧
    (prepareFile exampleConfig ⟨"/watch/a.torrent", Create⟩ alwaysSucceeds lockedWorld).2.calls =
      [.upload (.file "d8:announce") "/watch/a.torrent" 12] ∧
    (prepareFile exampleConfig ⟨"/watch/a.torrent", Create⟩ alwaysSucceeds lockedWorld).2.ops =
      [.osOpen "/watch/a.torrent", .osRemove "/watch/a.torrent"] ∧
    (prepareFile exampleConfig ⟨"/watch/a.torrent", Create⟩ alwaysSucceeds lockedWorld).2.fs
      "/watch/a.torrent" ≠ none := by
  decide

/-- In the example, intake against a client that always succeeds removes
`a.torrent` after uploading its content to folder 12, and removes
`b.magnet` after submitting its text to folder 12. -/
theorem prepareFile_success_witness :
    ((prepareFile exampleConfig ⟨"/watch/a.torrent", Create⟩ alwaysSucceeds exampleWorld).2.fs
        "/watch/a.torrent" = none ∧
      (prepareFile exampleConfig ⟨"/watch/a.torrent", Create⟩ alwaysSucceeds
          exampleWorld).2.calls =
        [.upload (.file "d8:announce") "/watch/a.torrent" 12]) ∧
    ((prepareFile exampleConfig ⟨"/watch/b.magnet", Create⟩ alwaysSucceeds exampleWorld).2.fs
        "/watch/b.magnet" = none ∧
      (prepareFile exampleConfig ⟨"/watch/b.magnet", Create⟩ alwaysSucceeds
          exampleWorld).2.calls =
        [.transfersAdd "magnet:?xt=urn:btih:c12f" 12 ""]) :=
  have ha := prepareFile_success exampleConfig ⟨"/watch/a.torrent", Create⟩ alwaysSucceeds
    exampleWorld "d8:announce" 12 (Or.inl ⟨"/watch/a", rfl⟩) rfl rfl (by decide)
    (fun _ _ => by simp [alwaysSucceeds]) (fun _ _ _ _ => by simp [alwaysSucceeds])
  have hb := prepareFile_success exampleConfig ⟨"/watch/b.magnet", Create⟩ alwaysSucceeds
    exampleWorld "magnet:?xt=urn:btih:c12f" 12 (Or.inr ⟨"/watch/b", rfl⟩) rfl rfl (by decide)
    (fun _ _ => by simp [alwaysSucceeds]) (fun _ _ _ _ => by simp [alwaysSucceeds])
  ⟨⟨ha.2.1, ha.2.2.2.1 ⟨"/watch/a", rfl⟩⟩, ⟨hb.2.1, hb.2.2.2.2 ⟨"/watch/b", rfl⟩⟩⟩

/-- An upload answered with a `nil` error and no transfer: `prepareFile`
panics at the dereference of main.go:71 after the upload, `os.Remove` is not
reached and the file stays; the sweep of `main` dies at `a.torrent`, makes no
call for `b.magnet` and does not reach `watchFolder`. -/
theorem upload_without_transfer_panics :
    (prepareFile exampleConfig ⟨"/watch/a.torrent", Create⟩ succeedsWithoutTransfer
        exampleWorld).1 = .panicked ∧
    (prepareFile exampleConfig ⟨"/watch/a.torrent", Create⟩ succeedsWithoutTransfer
        exampleWorld).2.calls = [.upload (.file "d8:announce") "/watch/a.torrent" 12] ∧
    (prepareFile exampleConfig ⟨"/watch/a.torrent", Create⟩ succeedsWithoutTransfer
        exampleWorld).2.ops = [.osOpen "/watch/a.torrent"] ∧
    (prepareFile exampleConfig ⟨"/watch/a.torrent", Create⟩ succeedsWithoutTransfer
        exampleWorld).2.fs "/watch/a.torrent" = some (.file "d8:announce" true) ∧
    (sweep exampleConfig succeedsWithoutTransfer exampleListing
        (exampleWorld.println .started)).1 = .panicked ∧
    (sweep exampleConfig succeedsWithoutTransfer exampleListing
        (exampleWorld.println .started)).2.calls =
      [.upload (.file "d8:announce") "/watch/a.torrent" 12] ∧
    ¬ ∃ w, main exampleConfig succeedsWithoutTransfer (.ok exampleListing) exampleWorld =
      .watchFolder w := by
  refine ⟨by decide, by decide, by decide, by decide, by decide, by decide, ?_⟩
  rintro ⟨w, h⟩
  have h2 : main exampleConfig succeedsWithoutTransfer (.ok exampleListing) exampleWorld =
      .panic (sweep exampleConfig succeedsWithoutTransfer exampleListing
        (exampleWorld.println .started)).2 := rfl
  rw [h2] at h
  exact Outcome.noConfusion h

/-- In the example, intake of `c.txt` does nothing but log. -/
theorem prepareFile_unrecognised_witness :
    (prepareFile exampleConfig ⟨"/watch/c.txt", Create⟩ alwaysSucceeds exampleWorld).1 =
      .returned () ∧
    (prepareFile exampleConfig ⟨"/watch/c.txt", Create⟩ alwaysSucceeds exampleWorld).2.calls =
      [] ∧
    (prepareFile exampleConfig ⟨"/watch/c.txt", Create⟩ alwaysSucceeds exampleWorld).2.ops =
      [] ∧
    (prepareFile exampleConfig ⟨"/watch/c.txt", Create⟩ alwaysSucceeds exampleWorld).2.fs =
      exampleWorld.fs ∧
    (prepareFile exampleConfig ⟨"/watch/c.txt", Create⟩ alwaysSucceeds exampleWorld).2.out =
      [.logErr (.notTorrentOrMagnet "/watch/c.txt")] :=
  have h := prepareFile_unrecognised exampleConfig ⟨"/watch/c.txt", Create⟩ alwaysSucceeds
    exampleWorld ⟨not_endsWith_of_hasSuffix (by decide), not_endsWith_of_hasSuffix (by decide)⟩
  ⟨h.1, h.2.1, h.2.2.1, h.2.2.2.1, h.2.2.2.2.2⟩

/-- C5, as stated, fails: in the example directory with a folder id that is
set and does not parse, two entries are files ending in ".torrent" or
".magnet" and the sweep of `main` makes no remote call; and with the folder
id 12 and `a.torrent` unreadable, the sweep makes one call only, for
`b.magnet`. -/
theorem sweep_calls_counterexample :
    checkEnvVariables badIdConfig = none ∧
    (exampleListing.filter isCandidate).map (fun f => f.name) = ["a.torrent", "b.magnet"] ∧
    (sweep badIdConfig alwaysSucceeds exampleListing (exampleWorld.println .started)).1 =
      .returned () ∧
    (sweep badIdConfig alwaysSucceeds exampleListing
        (exampleWorld.println .started)).2.calls = [] ∧
    (sweep badIdConfig alwaysSucceeds exampleListing
        (exampleWorld.println .started)).2.calls.length ≠
      (exampleListing.filter isCandidate).length ∧
    (sweep exampleConfig alwaysSucceeds exampleListing
        (unreadableWorld.println .started)).2.calls =
      [.transfersAdd "magnet:?xt=urn:btih:c12f" 12 ""] := by
  decide

/-- In the example with the folder id 12, the sweep makes exactly the two
calls for `a.torrent` and `b.magnet`, and `c.txt` and `d` are as before. -/
theorem sweep_calls_witness :
    (sweep exampleConfig alwaysSucceeds exampleListing exampleWorld).1 = .returned () ∧
    (sweep exampleConfig alwaysSucceeds exampleListing exampleWorld).2.calls =
      [.upload (.file "d8:announce") "/watch/a.torrent" 12,
        .transfersAdd "magnet:?xt=urn:btih:c12f" 12 ""] ∧
    (sweep exampleConfig alwaysSucceeds exampleListing exampleWorld).2.fs "/watch/c.txt" =
      some (.file "notes" true) ∧
    (sweep exampleConfig alwaysSucceeds exampleListing exampleWorld).2.fs "/watch/d" =
      some (.dir true) :=
  have hread : ∀ f ∈ exampleListing, isCandidate f = true →
      ∃ content, exampleWorld.fs (entryPath exampleConfig f) = some (.file content true) := by
    intro f hf hc
    simp only [exampleListing, List.mem_cons, List.mem_singleton, List.not_mem_nil,
      or_false] at hf
    rcases hf with rfl | rfl | rfl | rfl
    · exact ⟨_, rfl⟩
    · exact ⟨_, rfl⟩
    · exact absurd hc (by decide)
    · exact absurd hc (by decide)
  have h := sweep_calls exampleConfig alwaysSucceeds exampleListing exampleWorld 12
    (by decide) (by decide) hread (fun _ _ _ _ => by simp [alwaysSucceeds])
  ⟨h.1, h.2.1.trans (by decide), h.2.2.1 ⟨"c.txt", false⟩ (by decide) (by decide),
    h.2.2.1 ⟨"d", true⟩ (by decide) (by decide)⟩

/-- C6, as stated, fails: for "/watch/a.torrent" the upload is called with
the name "/watch/a.torrent", which is not the base name "a.torrent". -/
theorem upload_name_counterexample :
    (uploadTorrentToPutio exampleConfig "/watch/a.torrent" "" alwaysSucceeds
        exampleWorld).2.calls =
      [.upload (.file "d8:announce") "/watch/a.torrent" 12] ∧
    baseName "/watch/a.torrent" = "a.torrent" ∧
    (uploadTorrentToPutio exampleConfig "/watch/a.torrent" "" alwaysSucceeds
        exampleWorld).2.calls ≠
      [.upload (.file "d8:announce") (baseName "/watch/a.torrent") 12] := by
  decide

/-- In the example, the upload of `a.torrent` carries its path. -/
theorem upload_name_is_path_witness :
    (uploadTorrentToPutio exampleConfig "/watch/a.torrent" "" alwaysSucceeds
        exampleWorld).2.calls =
      [.upload (.file "d8:announce") "/watch/a.torrent" 12] :=
  (upload_name_is_path exampleConfig "/watch/a.torrent" "" alwaysSucceeds exampleWorld
    (.file "d8:announce") rfl).trans (by decide)

/-- C7, as stated, fails: in the example directory with the folder id "x",
`main` does not exit; it logs one error for `a.torrent` and one for
`b.magnet` and reaches `watchFolder`. -/
theorem main_unparsable_counterexample :
    badIdConfig.downloadFolderID ≠ "" ∧
    folderIDConvert badIdConfig = (0, some (.strconvErr .errSyntax)) ∧
    (∃ w, main badIdConfig alwaysSucceeds (.ok exampleListing) exampleWorld = .watchFolder w ∧
      w.out = [.started, .uploadFehler (.strconvErr .errSyntax),
        .transferFehler (.strconvErr .errSyntax)]) ∧
    (¬ ∃ err w, main badIdConfig alwaysSucceeds (.ok exampleListing) exampleWorld =
      .fatal err w) ∧
    ¬ ∃ w, main badIdConfig alwaysSucceeds (.ok exampleListing) exampleWorld = .panic w := by
  have h2 : main badIdConfig alwaysSucceeds (.ok exampleListing) exampleWorld =
      .watchFolder (sweep badIdConfig alwaysSucceeds exampleListing
        (exampleWorld.println .started)).2 := rfl
  refine ⟨by decide, by decide, ⟨_, h2, by decide⟩, ?_, ?_⟩
  · rintro ⟨err, w, h⟩
    rw [h2] at h
    exact Outcome.noConfusion h
  · rintro ⟨w, h⟩
    rw [h2] at h
    exact Outcome.noConfusion h

/-- In the example with the folder id "x", `main` reaches `watchFolder`
with the two parse errors logged and nothing else changed. -/
theorem main_unparsable_folder_id_witness :
    main badIdConfig alwaysSucceeds (.ok exampleListing) exampleWorld =
      .watchFolder
        { exampleWorld with
          out := [.started, .uploadFehler (.strconvErr .errSyntax),
            .transferFehler (.strconvErr .errSyntax)] } :=
  (main_unparsable_folder_id badIdConfig alwaysSucceeds exampleListing exampleWorld .errSyntax
    ⟨by decide, by decide, by decide⟩ (by decide)).trans
    (congrArg Outcome.watchFolder (by
      have : (exampleListing.filter isCandidate).map (parseErrorLine .errSyntax) =
          [.uploadFehler (.strconvErr .errSyntax), .transferFehler (.strconvErr .errSyntax)] := by
        decide
      rw [this]
      rfl))

end Krantor
